import Mathlib

/-! Music lesson scheduler: slot computation, booking policy, reminder window,
block merging, OAuth scopes and state, unique slugs.

A shallow embedding of the decision logic of `backend/index.js`,
`backend/scheduler.js`, `backend/googleAuth.js` and the two controllers under
`backend/controllers/`.

Instants are millisecond timestamps: Luxon `DateTime` values and JavaScript
`Date` values are compared through `valueOf()`, which is the number of
milliseconds since the epoch, so an instant is modelled by that integer (`Int`).
The result of every call that leaves the process (database, Google APIs, date
parsing by the runtime) is an input of the handler that makes it; a thrown
error is an `Except.error`.
-/

namespace LessonScheduler

/-- The constant `SLOT_DURATION_MINUTES` of `index.js`. -/
def SLOT_DURATION_MINUTES : Int := 30

/-- Luxon `dt.plus({ minutes: m })` on a valid instant. -/
def plusMinutes (t : Int) (m : Int) : Int := t + m * 60000

/-- An element of `googleEvents` in the available-slots handler:
`{ startTime, endTime }`, both built from the event's `dateTime` fields. -/
structure BusyEvent where
  startTime : Int
  endTime : Int
deriving DecidableEq, Repr

/-- An element of `slots`: `{ startTime: current.toISO(), endTime: next.toISO() }`.
The two ISO strings are represented by the instants they denote. -/
structure Slot where
  startTime : Int
  endTime : Int
deriving DecidableEq, Repr

/-- The callback given to `googleEvents.some` in the slot loop:
`evStart < next && evEnd > current`. -/
def eventOverlaps (current next : Int) (event : BusyEvent) : Bool :=
  decide (event.startTime < next) && decide (event.endTime > current)

/-- The slot loop of `GET /calendar/:teacherSlug/available-slots` in `index.js`:
`while (current.plus({ minutes }) <= workingEnd) { ... current = next }`,
with `slots` the array built so far. -/
def slotLoop (googleEvents : List BusyEvent) (workingEnd : Int)
    (current : Int) (slots : List Slot) : List Slot :=
  if _h : plusMinutes current SLOT_DURATION_MINUTES ≤ workingEnd then
    let next := plusMinutes current SLOT_DURATION_MINUTES
    let overlaps := googleEvents.any (eventOverlaps current next)
    if !overlaps then
      slotLoop googleEvents workingEnd next (slots ++ [{ startTime := current, endTime := next }])
    else
      slotLoop googleEvents workingEnd next slots
  else
    slots
termination_by (workingEnd - current).toNat
decreasing_by
  all_goals
    simp only [plusMinutes, SLOT_DURATION_MINUTES] at *
    omega

/-- The slot computation of the handler: `slots = []`, `current = workingStart`,
then the loop. -/
def computeSlots (googleEvents : List BusyEvent) (workingStart workingEnd : Int) :
    List Slot :=
  slotLoop googleEvents workingEnd workingStart []

/-! ## Vocabulary for the slot claims

The candidate sequence and the free test are not functions of the source; they
name what the loop walks through and what it tests, and `computeSlots_eq`
below relates them to the loop. -/

/-- The `k`-th candidate of the walk that starts at `workingStart`:
`[workingStart + k * 30min, workingStart + (k + 1) * 30min)`. -/
def candidate (workingStart : Int) (k : Nat) : Slot :=
  { startTime := plusMinutes workingStart (SLOT_DURATION_MINUTES * k),
    endTime := plusMinutes workingStart (SLOT_DURATION_MINUTES * (k + 1)) }

/-- A candidate is generated inside the window when it ends at or before
`workingEnd` (the loop condition). -/
def generated (workingStart workingEnd : Int) (k : Nat) : Prop :=
  (candidate workingStart k).endTime ≤ workingEnd

instance (ws we : Int) (k : Nat) : Decidable (generated ws we k) := by
  unfold generated; infer_instance

/-- Number of iterations of the slot loop from `current`. -/
def slotCount (workingStart workingEnd : Int) : Nat :=
  ((workingEnd - workingStart) / (SLOT_DURATION_MINUTES * 60000)).toNat

/-- A slot is free when no busy event overlaps it (the negation of `overlaps`). -/
def slotFree (googleEvents : List BusyEvent) (s : Slot) : Bool :=
  !googleEvents.any (eventOverlaps s.startTime s.endTime)

/-- The candidates the loop walks through, in order. -/
def candidates (workingStart workingEnd : Int) : List Slot :=
  (List.range (slotCount workingStart workingEnd)).map (candidate workingStart)

/-! ## JavaScript values, responses and effects -/

/-- A JavaScript value as it arrives in a JSON body or a session: the
primitives the handlers test for truthiness and compare with `!==`.
Numbers are the safe integers, those of absolute value at most `2^53 - 1`:
each is a JavaScript number of its own, and `toString` prints it in plain
decimal. Fractions, integers beyond that range (which `toString` prints
rounded, or in exponent form from `1e21`) and `NaN` are left out. -/
inductive JsVal where
  | undefined
  | null
  | bool (b : Bool)
  | num (n : Int) (safe : -9007199254740991 ≤ n ∧ n ≤ 9007199254740991)
  | str (s : String)
deriving DecidableEq, Repr

/-- JavaScript truthiness: `!v` is `!(v.truthy)`. -/
def JsVal.truthy : JsVal → Bool
  | .undefined => false
  | .null => false
  | .bool b => b
  | .num n _ => n != 0
  | .str s => s != ""

/-- The method `v.toString()`, also the text of `v` in a template literal. On
a safe integer it is the decimal text, with a minus sign when negative. The
handlers call the method only on a value that has passed the truthiness test,
so the `undefined` and `null` rows (where the method throws) are reached only
through template literals, which print these two names. -/
def JsVal.toStr : JsVal → String
  | .undefined => "undefined"
  | .null => "null"
  | .bool b => if b then "true" else "false"
  | .num n _ => toString n
  | .str s => s

/-- A row of the `user` table, with the columns the handlers read. -/
structure UserRow where
  role : String
  googleToken : Option String
deriving DecidableEq, Repr

/-- The test `!user || user.role !== role`. -/
def missingOrNotRole (user : Option UserRow) (role : String) : Bool :=
  match user with
  | none => true
  | some u => u.role != role

/-- What a handler sends: the status code and the fields of the JSON body. -/
structure Response where
  status : Nat
  error : Option String
  message : Option String
  warning : Option String
  availableSlots : Option (List Slot)
deriving DecidableEq, Repr

/-- The call `res.status(status).json({ error })`. -/
def errorResponse (status : Nat) (error : String) : Response :=
  { status := status, error := some error, message := none, warning := none,
    availableSlots := none }

/-- The call `res.status(status).json({ message })`. -/
def messageResponse (status : Nat) (message : String) : Response :=
  { status := status, error := none, message := some message, warning := none,
    availableSlots := none }

/-- An external write a handler has performed. -/
inductive Effect where
  | eventsInsert
  | eventsDelete
  | emailSent
deriving DecidableEq, Repr

/-- The response of a handler run together with the writes it performed, in order. -/
structure Outcome where
  response : Response
  effects : List Effect
deriving DecidableEq, Repr

/-! ## The 24-hour lead time -/

/-- Luxon `later.diff(now, 'hours').hours`: the millisecond difference shifted
to hours, a fractional number. `none` is `NaN` (an invalid `DateTime`).
The JavaScript number is the correctly rounded quotient; it is kept exact here,
which gives the same answer to every comparison with an integer bound. -/
def diffHours (later : Option Int) (now : Int) : Option ℚ :=
  later.map (fun t => ((t - now : Int) : ℚ) / 3600000)

/-- JavaScript `x < bound` on a number that may be `NaN`: false on `NaN`. -/
def numLt (x : Option ℚ) (bound : ℚ) : Bool :=
  match x with
  | none => false
  | some q => decide (q < bound)

/-- The gate `if (hoursUntilLesson < 24)` of `POST /calendar/book`
and `if (hoursUntilEvent < 24)` of `DELETE /calendar/cancel`: true when the
handler rejects. -/
def within24Hours (start : Option Int) (now : Int) : Bool :=
  numLt (diffHours start now) 24

/-! ## `POST /calendar/book` -/

/-- Everything a run of `POST /calendar/book` reads from outside: the request
body, the results of the awaited calls (`Except.error` is a thrown error), the
clock, and Luxon's parse of `startTime` (`none` when the string is not a valid
ISO date-time). -/
structure BookEnv where
  teacherId : JsVal
  studentId : JsVal
  studentName : JsVal
  studentEmail : JsVal
  startTime : JsVal
  endTime : JsVal
  teacher : Except String (Option UserRow)
  student : Except String (Option UserRow)
  now : Int
  lessonStart : Option Int
  client : Except String Unit
  insertResult : Except String Unit
  emailResult : Except String Unit

/-- The outer `catch` of `POST /calendar/book`. -/
def bookCatch : Outcome :=
  { response := errorResponse 500 "Failed to create appointment in Google Calendar",
    effects := [] }

/-- The inner `try`/`catch` around the notification email: a failed send is
logged and nothing else happens. -/
def emailEffects (emailResult : Except String Unit) : List Effect :=
  match emailResult with
  | .ok _ => [Effect.emailSent]
  | .error _ => []

/-- The handler of `POST /calendar/book`. -/
def bookHandler (env : BookEnv) : Outcome :=
  if !env.teacherId.truthy || !env.studentId.truthy || !env.studentName.truthy
      || !env.studentEmail.truthy || !env.startTime.truthy || !env.endTime.truthy then
    { response := errorResponse 400 "Missing fields in request", effects := [] }
  else
    match env.teacher with
    | .error _ => bookCatch
    | .ok teacher =>
      if missingOrNotRole teacher "TEACHER" then
        { response := errorResponse 404 "Teacher not found", effects := [] }
      else
        match env.student with
        | .error _ => bookCatch
        | .ok student =>
          if missingOrNotRole student "STUDENT" then
            { response := errorResponse 404 "Student not found", effects := [] }
          else if within24Hours env.lessonStart env.now then
            { response := errorResponse 403
                "Bookings must be made at least 24 hours in advance.",
              effects := [] }
          else
            match env.client with
            | .error _ => bookCatch
            | .ok _ =>
              match env.insertResult with
              | .error _ => bookCatch
              | .ok _ =>
                { response := messageResponse 201 "✅ Appointment created in Google Calendar",
                  effects := Effect.eventsInsert :: emailEffects env.emailResult }

/-- The request reaches the advance-booking check: no field is missing, and
the teacher and the student are found with the right roles (the tests of the
handler up to that point, all passed). -/
def BookEnv.reachesGate (env : BookEnv) : Bool :=
  env.teacherId.truthy && env.studentId.truthy && env.studentName.truthy
    && env.studentEmail.truthy && env.startTime.truthy && env.endTime.truthy
    && (match env.teacher with
        | .ok teacher => !missingOrNotRole teacher "TEACHER"
        | .error _ => false)
    && (match env.student with
        | .ok student => !missingOrNotRole student "STUDENT"
        | .error _ => false)

/-- A request of student 7 to teacher 3 in which every lookup and every
external call succeeds, at clock reading `now` and with `lessonStart` the parse
of its `startTime`. -/
def bookEnvAt (now : Int) (lessonStart : Option Int) : BookEnv :=
  { teacherId := .num 3 (by decide), studentId := .num 7 (by decide), studentName := .str "Ada",
    studentEmail := .str "ada@example.org", startTime := .str "start", endTime := .str "end",
    teacher := .ok (some { role := "TEACHER", googleToken := some "token" }),
    student := .ok (some { role := "STUDENT", googleToken := none }),
    now := now, lessonStart := lessonStart,
    client := .ok (), insertResult := .ok (), emailResult := .ok () }

/-! ## `DELETE /calendar/cancel` -/

/-- The fields of the calendar event that the cancel handler reads.
`privateStudentId` is `extendedProperties?.private?.studentId`;
`startDateTime` and `startDate` are the instants denoted by `start?.dateTime`
and `start?.date` (strings written by Google Calendar, which parse). -/
structure CalEvent where
  privateStudentId : Option String
  startDateTime : Option Int
  startDate : Option Int
deriving DecidableEq, Repr

/-- Everything a run of `DELETE /calendar/cancel` reads from outside.
`sessionUserId` is `none` when `req.session?.user` is missing, otherwise
`req.session.user.id`. -/
structure CancelEnv where
  eventId : JsVal
  studentId : JsVal
  teacherId : JsVal
  teacher : Except String (Option UserRow)
  student : Except String (Option UserRow)
  sessionUserId : Option JsVal
  client : Except String Unit
  event : Except String CalEvent
  now : Int
  deleteResult : Except String Unit
  emailResult : Except String Unit

/-- The outer `catch` of `DELETE /calendar/cancel`. -/
def cancelCatch : Outcome :=
  { response := errorResponse 500 "Failed to cancel lesson", effects := [] }

/-- The test `!req.session?.user || req.session.user.id !== studentId`. -/
def sessionMismatch (sessionUserId : Option JsVal) (studentId : JsVal) : Bool :=
  match sessionUserId with
  | none => true
  | some id => id != studentId

/-- The test `!private?.studentId || private.studentId !== studentId.toString()`. -/
def eventNotOwned (privateStudentId : Option String) (studentId : JsVal) : Bool :=
  match privateStudentId with
  | none => true
  | some s => s == "" || s != studentId.toStr

/-- The value `event.data.start?.dateTime || event.data.start?.date`, parsed. -/
def startTimeISO (event : CalEvent) : Option Int :=
  match event.startDateTime with
  | some t => some t
  | none => event.startDate

/-- The handler of `DELETE /calendar/cancel`. -/
def cancelHandler (env : CancelEnv) : Outcome :=
  if !env.eventId.truthy || !env.studentId.truthy || !env.teacherId.truthy then
    { response := errorResponse 400 "Missing eventId, studentId, or teacherId", effects := [] }
  else
    match env.teacher with
    | .error _ => cancelCatch
    | .ok teacher =>
      if missingOrNotRole teacher "TEACHER" then
        { response := errorResponse 404 "Teacher not found", effects := [] }
      else
        match env.student with
        | .error _ => cancelCatch
        | .ok student =>
          if missingOrNotRole student "STUDENT" then
            { response := errorResponse 404 "Student not found", effects := [] }
          else if sessionMismatch env.sessionUserId env.studentId then
            { response := errorResponse 403 "Unauthorized: Invalid student ID", effects := [] }
          else
            match env.client with
            | .error _ => cancelCatch
            | .ok _ =>
              match env.event with
              | .error _ => cancelCatch
              | .ok event =>
                if eventNotOwned event.privateStudentId env.studentId then
                  { response := errorResponse 403 "Unauthorized: You cannot cancel this event",
                    effects := [] }
                else
                  match startTimeISO event with
                  | none =>
                    { response := errorResponse 400 "Event start time is missing",
                      effects := [] }
                  | some eventStart =>
                    if within24Hours (some eventStart) env.now then
                      { response := errorResponse 403
                          "Cancellations are not allowed within 24 hours of the lesson start time.",
                        effects := [] }
                    else
                      match env.deleteResult with
                      | .error _ => cancelCatch
                      | .ok _ =>
                        { response := messageResponse 200 "✅ Lesson cancelled",
                          effects := Effect.eventsDelete :: emailEffects env.emailResult }

/-- The request reaches the policy checks of the cancel handler: the three
fields are present, and the teacher and the student are found with the right
roles (the tests of the handler up to that point, all passed). -/
def CancelEnv.reachesPolicy (env : CancelEnv) : Bool :=
  env.eventId.truthy && env.studentId.truthy && env.teacherId.truthy
    && (match env.teacher with
        | .ok teacher => !missingOrNotRole teacher "TEACHER"
        | .error _ => false)
    && (match env.student with
        | .ok student => !missingOrNotRole student "STUDENT"
        | .error _ => false)

/-- A cancel request of student 7 for an event of teacher 3 in which every
lookup and every external call succeeds, at clock reading `now`, with the
given session user and calendar event. -/
def cancelEnvAt (now : Int) (sessionUserId : Option JsVal) (event : CalEvent) : CancelEnv :=
  { eventId := .str "evt1", studentId := .num 7 (by decide), teacherId := .num 3 (by decide),
    teacher := .ok (some { role := "TEACHER", googleToken := some "token" }),
    student := .ok (some { role := "STUDENT", googleToken := none }),
    sessionUserId := sessionUserId, client := .ok (), event := .ok event, now := now,
    deleteResult := .ok (), emailResult := .ok () }

/-! ## `GET /calendar/:teacherSlug/available-slots` -/

/-- An item of `data.items` returned by `calendar.events.list`: the instants of
`start.dateTime` and `end.dateTime`, absent on an all-day event, and the
instants of `start.date` and `end.date` (midnight UTC of those dates, as
`new Date` reads a date-only string), present on an all-day event. -/
structure GEvent where
  startDateTime : Option Int
  endDateTime : Option Int
  startDate : Option Int
  endDate : Option Int
deriving DecidableEq, Repr

/-- The `map` and `filter(Boolean)` over the items of one calendar: an item
lacking either `dateTime` becomes `null` and is removed. -/
def timedEvents (items : List GEvent) : List BusyEvent :=
  items.filterMap (fun event =>
    match event.startDateTime, event.endDateTime with
    | some s, some e => some { startTime := s, endTime := e }
    | _, _ => none)

/-- The loop `for (const cal of allCalendars)`: the events of each calendar
are appended to `googleEvents`; a calendar whose read throws is skipped. -/
def gatherEvents (fetches : List (Except String (List GEvent))) : List BusyEvent :=
  fetches.foldl
    (fun googleEvents fetch =>
      match fetch with
      | .ok items => googleEvents ++ timedEvents items
      | .error _ => googleEvents)
    []

/-- Everything a run of the available-slots handler reads from outside.
`weekday` is Luxon's `dayStart.weekday` (1 = Monday, ..., 6 = Saturday,
7 = Sunday; `none` is `NaN`, for a date that does not parse); `calendars` is
the result of `calendarList.list()` with, per calendar, the result of
`events.list`; `workingStart` and `workingEnd` are Luxon's parses of the
working hours on that date (`none` when invalid). -/
structure SlotsEnv where
  date : Option String
  teacher : Except String (Option UserRow)
  client : Except String Unit
  weekday : Option Nat
  calendars : Except String (List (Except String (List GEvent)))
  workingStart : Option Int
  workingEnd : Option Int

/-- The value `res.json({ availableSlots, ... })` with an optional message or warning. -/
def slotsResponse (slots : List Slot) (message warning : Option String) : Response :=
  { status := 200, error := none, message := message, warning := warning,
    availableSlots := some slots }

/-- The `catch` of the available-slots handler. -/
def slotsCatch : Response := errorResponse 500 "Could not fetch available slots"

/-- The slot loop on Luxon values: an invalid `DateTime` compares as `NaN`, so
the loop condition is false at once and `slots` stays empty. -/
def slotsOfWindow (googleEvents : List BusyEvent) (workingStart workingEnd : Option Int) :
    List Slot :=
  match workingStart, workingEnd with
  | some ws, some we => computeSlots googleEvents ws we
  | _, _ => []

/-- The handler of `GET /calendar/:teacherSlug/available-slots` in `index.js`. -/
def availableSlotsHandler (env : SlotsEnv) : Response :=
  if env.date.isNone || env.date == some "" then
    errorResponse 400 "Missing date (YYYY-MM-DD)"
  else
    match env.teacher with
    | .error _ => slotsCatch
    | .ok none => errorResponse 404 "Teacher not found"
    | .ok (some teacher) =>
      if teacher.googleToken.isNone || teacher.googleToken == some "" then
        slotsResponse [] none (some "Google Calendar not connected for this teacher.")
      else
        match env.client with
        | .error _ => slotsCatch
        | .ok _ =>
          if env.weekday == some 6 || env.weekday == some 7 then
            slotsResponse [] (some "No availability on weekends.") none
          else
            match env.calendars with
            | .error _ => slotsCatch
            | .ok fetches =>
              slotsResponse
                (slotsOfWindow (gatherEvents fetches) env.workingStart env.workingEnd)
                none none

/-- A request for the date `date` to a teacher who is found, has a Google
token and whose client is authorized, with the given weekday, calendar reads
and working window. -/
def slotsEnvAt (date : String) (weekday : Option Nat)
    (calendars : Except String (List (Except String (List GEvent))))
    (workingStart workingEnd : Option Int) : SlotsEnv :=
  { date := some date,
    teacher := .ok (some { role := "TEACHER", googleToken := some "token" }),
    client := .ok (), weekday := weekday, calendars := calendars,
    workingStart := workingStart, workingEnd := workingEnd }

/-- The request reaches the calendar reads of the available-slots handler: a
date is given, the teacher is found and has a Google token, the client is
authorized and the date is not on a weekend (the tests of the handler up to
that point, all passed). -/
def SlotsEnv.reachesFetch (env : SlotsEnv) : Bool :=
  !(env.date.isNone || env.date == some "")
    && (match env.teacher with
        | .ok (some teacher) => !(teacher.googleToken.isNone || teacher.googleToken == some "")
        | _ => false)
    && (match env.client with
        | .ok _ => true
        | .error _ => false)
    && !(env.weekday == some 6 || env.weekday == some 7)

/-- The step of the loop over calendars (the function folded by `gatherEvents`). -/
def gatherStep (googleEvents : List BusyEvent) (fetch : Except String (List GEvent)) :
    List BusyEvent :=
  match fetch with
  | .ok items => googleEvents ++ timedEvents items
  | .error _ => googleEvents

/-- A calendar read in which a failure is replaced by a successful read of a
calendar without events. -/
def asIfEmpty (fetch : Except String (List GEvent)) : Except String (List GEvent) :=
  match fetch with
  | .ok items => .ok items
  | .error _ => .ok []

/-! ## `getAvailableSlots` of `controllers/calendarController.js` -/

/-- An element of `googleEvents` in the controller:
`{ startTime: new Date(...), endTime: new Date(...) }`; `none` is an invalid
`Date`. -/
structure DateEvent where
  startTime : Option Int
  endTime : Option Int
deriving DecidableEq, Repr

/-- JavaScript `a || b` on two optional values. -/
def orElse (a b : Option Int) : Option Int :=
  match a with
  | some x => some x
  | none => b

/-- The mapping of the controller over `data.items`:
`startTime: new Date(event.start.dateTime || event.start.date)` and the same
for the end. No item is dropped. -/
def controllerEvents (items : List GEvent) : List DateEvent :=
  items.map (fun event =>
    { startTime := orElse event.startDateTime event.startDate,
      endTime := orElse event.endDateTime event.endDate })

/-- JavaScript `a < b` on two `Date` values: false when either is invalid. -/
def dateLt (a b : Option Int) : Bool :=
  match a, b with
  | some x, some y => decide (x < y)
  | _, _ => false

/-- The callback of `googleEvents.some` in the controller:
`e.startTime < next && e.endTime > current`. -/
def controllerOverlaps (current next : Int) (e : DateEvent) : Bool :=
  dateLt e.startTime (some next) && dateLt (some current) e.endTime

/-- The slot loop of the controller: `while (current < dayEnd) { ... }`. -/
def controllerSlotLoop (googleEvents : List DateEvent) (dayEnd : Int)
    (current : Int) (slots : List Slot) : List Slot :=
  if _h : current < dayEnd then
    let next := current + SLOT_DURATION_MINUTES * 60000
    let overlapsGoogle := googleEvents.any (controllerOverlaps current next)
    if !overlapsGoogle then
      controllerSlotLoop googleEvents dayEnd next
        (slots ++ [{ startTime := current, endTime := next }])
    else
      controllerSlotLoop googleEvents dayEnd next slots
  else
    slots
termination_by (dayEnd - current).toNat
decreasing_by
  all_goals
    simp only [SLOT_DURATION_MINUTES] at *
    omega

/-- Everything a run of the controller's `getAvailableSlots` reads from
outside. `dateUtc` is the instant of `new Date(date + "T00:00:00.000Z")`,
`none` when that is an invalid `Date`; the other three dates built from `date`
(`T23:59:59.999Z`, `T10:00:00.000Z`, `T18:00:00.000Z`) are that instant plus
the time of day. `events` is the result of `calendar.events.list` on the
teacher's calendar. -/
structure ControllerEnv where
  date : Option String
  teacher : Except String (Option UserRow)
  client : Except String Unit
  dateUtc : Option Int
  events : Except String (List GEvent)

/-- The text of the function `getAvailableSlots` of `calendarController.js`,
read with the stray `});` of line 163 removed. The module as shipped does not
load because of that token, and no router that `index.js` mounts requires it:
no request reaches this function, and requests for available slots are served
by `availableSlotsHandler`. -/
def getAvailableSlots (env : ControllerEnv) : Response :=
  if env.date.isNone || env.date == some "" then
    errorResponse 400 "Date is required (YYYY-MM-DD)"
  else
    match env.teacher with
    | .error _ => errorResponse 500 "Error calculating available slots"
    | .ok none => errorResponse 404 "Teacher not found"
    | .ok (some teacher) =>
      if teacher.googleToken.isNone || teacher.googleToken == some "" then
        slotsResponse [] none (some "Google Calendar not connected for this teacher.")
      else
        match env.client with
        | .error _ => errorResponse 400 "Failed to authorize with Google Calendar"
        | .ok _ =>
          match env.dateUtc with
          | none => errorResponse 500 "Failed to fetch events from Google Calendar"
          | some midnight =>
            match env.events with
            | .error _ => errorResponse 500 "Failed to fetch events from Google Calendar"
            | .ok items =>
              slotsResponse
                (controllerSlotLoop (controllerEvents items)
                  (midnight + 18 * 3600000) (midnight + 10 * 3600000) [])
                none none

/-- A request to the controller for the date whose UTC midnight is `dateUtc`,
to a teacher who is found, has a Google token and whose client is authorized,
with the given events on the calendar. -/
def controllerEnvAt (date : String) (dateUtc : Option Int) (items : List GEvent) :
    ControllerEnv :=
  { date := some date,
    teacher := .ok (some { role := "TEACHER", googleToken := some "token" }),
    client := .ok (), dateUtc := dateUtc, events := .ok items }

/-- The controller's free test on a slot (the negation of `overlapsGoogle`). -/
def controllerFree (googleEvents : List DateEvent) (s : Slot) : Bool :=
  !googleEvents.any (controllerOverlaps s.startTime s.endTime)

/-- Number of iterations of the controller's loop from `current`: the least
`n` with `current + n * 30min >= dayEnd`. -/
def controllerCount (current dayEnd : Int) : Nat :=
  ((dayEnd - current + (SLOT_DURATION_MINUTES * 60000 - 1)) / (SLOT_DURATION_MINUTES * 60000)).toNat

/-- An event is timed when it has both `start.dateTime` and `end.dateTime`;
otherwise it is an all-day event. -/
def GEvent.timed (event : GEvent) : Bool :=
  event.startDateTime.isSome && event.endDateTime.isSome

/-- The items of a calendar with the all-day events deleted. -/
def dropAllDay (items : List GEvent) : List GEvent := items.filter GEvent.timed

/-- A calendar read with the all-day events deleted from its result. -/
def dropAllDayFetch (fetch : Except String (List GEvent)) : Except String (List GEvent) :=
  match fetch with
  | .ok items => .ok (dropAllDay items)
  | .error e => .error e

/-! ## `GET /calendar/:teacherSlug/events` -/

/-- JavaScript `a || b` on two optional strings: `a` when it is present and
non-empty, otherwise `b`. -/
def strOr (a b : Option String) : Option String :=
  match a with
  | some s => if s != "" then some s else b
  | none => b

/-- An item of `data.items` as the events handler reads it; the date strings
are passed through unparsed. -/
structure CalendarItem where
  summary : Option String
  startDateTime : Option String
  startDate : Option String
  endDateTime : Option String
  endDate : Option String
  id : Option String
  privateStudentId : Option String
deriving DecidableEq, Repr

/-- An element of the array the events handler answers with. -/
structure ListedEvent where
  summary : Option String
  startTime : Option String
  endTime : Option String
  eventId : Option String
  studentId : Option String
deriving DecidableEq, Repr

/-- The callback of `(data.items || []).map` in the events handler. -/
def listedEvent (event : CalendarItem) : ListedEvent :=
  { summary := strOr event.summary (some "(No title)"),
    startTime := strOr event.startDateTime event.startDate,
    endTime := strOr event.endDateTime event.endDate,
    eventId := event.id,
    studentId := strOr event.privateStudentId none }

/-- What the events handler sends: `res.status(status).json({ error })` or
`res.status(status).json(events)` with an array. -/
inductive EventsResponse where
  | error (status : Nat) (error : String)
  | events (status : Nat) (items : List ListedEvent)
deriving DecidableEq, Repr

/-- The status code of an answer of the events handler. -/
def EventsResponse.status : EventsResponse → Nat
  | .error status _ => status
  | .events status _ => status

/-- The method `date.toISOString()`: it throws a `RangeError` on an invalid
`Date` (`none`). The string returned is represented by the instant it
denotes. -/
def toISOString (date : Option Int) : Except String Int :=
  match date with
  | some t => .ok t
  | none => .error "RangeError: Invalid time value"

/-- The expression `new Date(iso)` on a string produced by `toISOString`: it
parses back to the same instant. -/
def dateOfISOString (iso : Int) : Option Int := some iso

/-- The test `isNaN(date)` on a `Date`. -/
def isNaNDate (date : Option Int) : Bool := date.isNone

/-- Everything a run of `GET /calendar/:teacherSlug/events` reads from outside.
`start` and `endParam` are the query parameters `start` and `end`;
`startDate` is `new Date(start + "T00:00:00Z")` and `endDate` is
`new Date(end + "T23:59:59Z")`, `none` when the `Date` is invalid; `client` is
the value of `getAuthorizedClientForUser` (`false` for a falsy one). -/
structure EventsEnv where
  start : Option String
  endParam : Option String
  startDate : Option Int
  endDate : Option Int
  teacher : Except String (Option UserRow)
  client : Except String Bool
  events : Except String (List CalendarItem)

/-- The `catch` of the events handler: `res.status(500).json([])`. -/
def eventsCatch : EventsResponse := .events 500 []

/-- The handler of `GET /calendar/:teacherSlug/events`. -/
def eventsHandler (env : EventsEnv) : EventsResponse :=
  if (env.start.isNone || env.start == some "")
      || (env.endParam.isNone || env.endParam == some "") then
    .error 400 "Missing start or end query parameters"
  else
    match toISOString env.startDate with
    | .error _ => eventsCatch
    | .ok timeMin =>
      match toISOString env.endDate with
      | .error _ => eventsCatch
      | .ok timeMax =>
        if isNaNDate (dateOfISOString timeMin) || isNaNDate (dateOfISOString timeMax) then
          .error 400 "Invalid start or end date format"
        else
          match env.teacher with
          | .error _ => eventsCatch
          | .ok none => .events 200 []
          | .ok (some teacher) =>
            if teacher.googleToken.isNone || teacher.googleToken == some "" then
              .events 200 []
            else
              match env.client with
              | .error _ => eventsCatch
              | .ok false => .error 401 "Failed to authenticate with Google Calendar"
              | .ok true =>
                match env.events with
                | .error _ => eventsCatch
                | .ok items => .events 200 (items.map listedEvent)

/-! ## `GET /auth/google` and `getAuthUrl` (`googleAuth.js`) -/

/-- The argument that `getAuthUrl` gives to `oAuth2Client.generateAuthUrl`; the
consent URL is built from it. -/
structure AuthUrlOptions where
  access_type : String
  prompt : String
  scope : List String
  state : String
deriving DecidableEq, Repr

/-- A parameter with a default value: the default applies when the argument is
`undefined`. -/
def withDefault (arg : JsVal) (fallback : String) : JsVal :=
  if arg = .undefined then .str fallback else arg

/-- The function `getAuthUrl(mode = 'login', role = 'STUDENT')`. The state is
the template literal of `mode`, a colon and `role`. -/
def getAuthUrl (mode role : JsVal) : AuthUrlOptions :=
  let mode := withDefault mode "login"
  let role := withDefault role "STUDENT"
  let scopes := ["https://www.googleapis.com/auth/userinfo.email",
    "https://www.googleapis.com/auth/userinfo.profile"]
  let scopes :=
    if role = .str "TEACHER" then
      scopes ++ ["https://www.googleapis.com/auth/calendar",
        "https://www.googleapis.com/auth/gmail.send"]
    else
      scopes ++ ["https://www.googleapis.com/auth/calendar.events.readonly"]
  { access_type := "offline",
    prompt := if mode = .str "create" then "consent" else "select_account",
    scope := scopes,
    state := mode.toStr ++ ":" ++ role.toStr }

/-- The value `param || fallback` for a query parameter. -/
def queryOr (param : Option String) (fallback : String) : String :=
  match param with
  | some s => if s != "" then s else fallback
  | none => fallback

/-- The handler of `GET /auth/google`: the options of the consent URL it
redirects to. `role.toUpperCase()` is `String.toUpper`, which agrees with it on
whether the result is `TEACHER`. The second argument given to `getAuthUrl` is
the boolean `isTeacher`. -/
def authGoogleHandler (modeQuery roleQuery : Option String) : AuthUrlOptions :=
  let mode := queryOr modeQuery "login"
  let role := queryOr roleQuery "STUDENT"
  let isTeacher := role.toUpper == "TEACHER"
  getAuthUrl (.str mode) (.bool isTeacher)

/-- A busy interval of `index.js` as an element of the controller's
`googleEvents`: the same two instants, as valid `Date` values. -/
def BusyEvent.toDateEvent (event : BusyEvent) : DateEvent :=
  { startTime := some event.startTime, endTime := some event.endTime }

/-! ## `GET /oauth2callback` -/

/-- What `/oauth2callback` does with the response: `res.send` or
`res.status(..).send` of a text, or `res.redirect` to a path. -/
inductive CallbackResponse where
  | send (status : Nat) (text : String)
  | redirect (path : String)
deriving DecidableEq, Repr

/-- Everything a run of `/oauth2callback` reads from outside: the query
parameters `code` and `state`, the value `{ userId, newUser }` of
`setCredentialsFromCode(code)` and the row found for `userId`. -/
structure CallbackEnv where
  code : Option String
  state : Option String
  credentials : Except String (JsVal × Bool)
  user : Except String (Option UserRow)

/-- The `catch` of `/oauth2callback`. -/
def callbackCatch : CallbackResponse := .send 500 "❌ Authentication failed"

/-- The handler of `GET /oauth2callback`. Reading `user.email` on a missing
row throws, which the `catch` answers. -/
def oauth2callback (env : CallbackEnv) : CallbackResponse :=
  if env.code.isNone || env.code == some "" then
    .send 200 "Authentication failed"
  else
    match env.credentials with
    | .error _ => callbackCatch
    | .ok (_, newUser) =>
      match env.user with
      | .error _ => callbackCatch
      | .ok none => callbackCatch
      | .ok (some _) =>
        if env.state == some "create" || newUser then
          .redirect "/complete-profile.html"
        else
          .redirect "/index.html"

/-! ## The unique slug loop of `loginUser` (`controllers/authController.js`) -/

/-- The template literal of `slugBase` followed by `count`, a counter in
decimal. -/
def slugWithCount (slugBase : String) (count : Nat) : String := slugBase ++ toString count

/-- The loop `while (await prisma.user.findUnique({ where: { calendarSlug:
slug } })) slug = slugBase + count++` of `loginUser`; `inUse slug` tells whether
a row with that slug exists. `fuel` bounds the number of lookups: the result
is `none` when the loop has not ended within that many. -/
def slugLoop (inUse : String → Bool) (slugBase : String) : Nat → String → Nat → Option String
  | 0, _, _ => none
  | fuel + 1, slug, count =>
    if inUse slug then
      slugLoop inUse slugBase fuel (slugWithCount slugBase count) (count + 1)
    else
      some slug

/-- The slug selection of `loginUser` for a new user whose email local part is
`slugBase`, with `S` the slugs in use: `slug = slugBase`, `count = 1`, then the
loop. -/
def selectSlug (S : Finset String) (slugBase : String) (fuel : Nat) : Option String :=
  slugLoop (fun slug => decide (slug ∈ S)) slugBase fuel slugBase 1

/-- The value of a decimal digit character. -/
def digitVal (c : Char) : Nat := c.toNat - 48

/-- The number that a list of decimal digits denotes. -/
def digitsVal (l : List Char) : Nat := l.foldl (fun acc c => 10 * acc + digitVal c) 0

/-! ## The reminder job (`scheduler.js`) -/

/-- The value `in48HoursStart`: `now + 48h - 30s`, in milliseconds. -/
def in48HoursStart (now : Int) : Int := (now + 48 * 60 * 60 * 1000) - 30 * 1000

/-- The value `in48HoursEnd`: `now + 48h + 30s`, in milliseconds. -/
def in48HoursEnd (now : Int) : Int := (now + 48 * 60 * 60 * 1000) + 30 * 1000

/-- The window test in the loop body of `sendStudentReminders`:
`if (eventStart < windowStart || eventStart > windowEnd) continue;`.
True when the event is not skipped. -/
def inReminderWindow (now eventStart : Int) : Bool :=
  !(decide (eventStart < in48HoursStart now) || decide (eventStart > in48HoursEnd now))

/-- The two skip tests of the loop body on an event returned by the calendar
query, whose `start?.dateTime` is `startDateTime` (absent on an all-day event):
true when the job goes on to look up the student and send the reminder. -/
def reminderSelects (now : Int) (startDateTime : Option Int) : Bool :=
  match startDateTime with
  | none => false
  | some eventStart => inReminderWindow now eventStart

/-- The loop body of `sendStudentReminders` for one event: true when
`gmail.users.messages.send` is called. The event must pass the two skip tests,
and `student?.email`, here `studentEmail`, for the student found by the
lookup, must be present and non-empty. -/
def reminderSendCalled (now : Int) (startDateTime : Option Int)
    (studentEmail : Option String) : Bool :=
  reminderSelects now startDateTime
    && (match studentEmail with
        | none => false
        | some email => email != "")

/-! ## `mergeTimeBlocks` (`scheduler.js`) -/

/-- A time block `[start, end]` of the weekly schedule. -/
abbrev Block := Int × Int

/-- The loop `for (let i = 1; ...)` of `mergeTimeBlocks`. The array `merged` is
`done ++ [last]`; `rest` holds `blocks[i], blocks[i+1], ...`. -/
def mergeLoop (done : List Block) (last : Block) : List Block → List Block
  | [] => done ++ [last]
  | current :: rest =>
    if current.1 ≤ last.2 then
      mergeLoop done (last.1, max last.2 current.2) rest
    else
      mergeLoop (done ++ [last]) current rest

/-- The comparator `(a, b) => a[0] - b[0]` as an order on blocks. -/
def startLe (a b : Block) : Prop := a.1 ≤ b.1

instance : DecidableRel startLe := fun a b => inferInstanceAs (Decidable (a.1 ≤ b.1))

instance : IsTotal Block startLe := ⟨fun a b => le_total a.1 b.1⟩

instance : IsTrans Block startLe := ⟨fun _ _ _ hab hbc => le_trans hab hbc⟩

/-- The function `mergeTimeBlocks(blocks)`. `Array.prototype.sort` is a stable
sort, and so is insertion sort: both give the same array. -/
def mergeTimeBlocks (blocks : List Block) : List Block :=
  if blocks.length = 0 then []
  else
    match blocks.insertionSort startLe with
    | [] => []
    | first :: rest => mergeLoop [] first rest

/-! ## Vocabulary for the merge claims -/

/-- The block covers the instant `t` (half-open, as `TimeInterval`). -/
def covers (b : Block) (t : Int) : Prop := b.1 ≤ t ∧ t < b.2

instance (b : Block) (t : Int) : Decidable (covers b t) := by
  unfold covers; infer_instance

/-- The relation between consecutive merged blocks, carrying the validity of
the later one so that it is transitive. -/
def apart (a b : Block) : Prop := a.2 < b.1 ∧ b.1 < b.2

instance : DecidableRel apart := fun a b => inferInstanceAs (Decidable (a.2 < b.1 ∧ b.1 < b.2))

/-! ## The slot loop in closed form -/

theorem slotLoop_unfold (ev : List BusyEvent) (we cur : Int) (acc : List Slot) :
    slotLoop ev we cur acc =
      if cur + 1800000 ≤ we then
        if slotFree ev ⟨cur, cur + 1800000⟩ then
          slotLoop ev we (cur + 1800000) (acc ++ [⟨cur, cur + 1800000⟩])
        else slotLoop ev we (cur + 1800000) acc
      else acc := by
  rw [slotLoop]
  simp only [plusMinutes, SLOT_DURATION_MINUTES, slotFree]
  norm_num

theorem candidate_zero (cur : Int) : candidate cur 0 = ⟨cur, cur + 1800000⟩ := by
  simp [candidate, plusMinutes, SLOT_DURATION_MINUTES]

theorem candidate_succ (cur : Int) (k : Nat) :
    candidate cur (k + 1) = candidate (cur + 1800000) k := by
  simp only [candidate, plusMinutes, SLOT_DURATION_MINUTES, Slot.mk.injEq]
  constructor <;> push_cast <;> ring

theorem candidate_startTime (cur : Int) (k : Nat) :
    (candidate cur k).startTime = cur + 1800000 * (k : Int) := by
  simp only [candidate, plusMinutes, SLOT_DURATION_MINUTES]
  ring

theorem candidate_endTime (cur : Int) (k : Nat) :
    (candidate cur k).endTime = cur + 1800000 * (k : Int) + 1800000 := by
  simp only [candidate, plusMinutes, SLOT_DURATION_MINUTES, Nat.cast_add, Nat.cast_one]
  ring

theorem candidate_eq (cur : Int) (k : Nat) :
    candidate cur k = { startTime := cur + 1800000 * (k : Int),
                        endTime := cur + 1800000 * (k : Int) + 1800000 } := by
  have h1 := candidate_startTime cur k
  have h2 := candidate_endTime cur k
  cases hcand : candidate cur k with
  | mk a b =>
    rw [hcand] at h1 h2
    simp only at h1 h2
    rw [h1, h2]

theorem slotCount_zero_iff (cur we : Int) : slotCount cur we = 0 ↔ ¬ cur + 1800000 ≤ we := by
  simp only [slotCount, SLOT_DURATION_MINUTES]
  omega

theorem slotCount_step (cur we : Int) (n : Nat) (h : slotCount cur we = n + 1) :
    cur + 1800000 ≤ we ∧ slotCount (cur + 1800000) we = n := by
  simp only [slotCount, SLOT_DURATION_MINUTES] at *
  omega

theorem slotLoop_eq_aux (ev : List BusyEvent) (we : Int) :
    ∀ (n : Nat) (cur : Int) (acc : List Slot), slotCount cur we = n →
      slotLoop ev we cur acc
        = acc ++ ((List.range n).map (candidate cur)).filter (slotFree ev) := by
  intro n
  induction n with
  | zero =>
    intro cur acc h
    rw [slotLoop_unfold, if_neg ((slotCount_zero_iff cur we).1 h)]
    simp
  | succ n ih =>
    intro cur acc h
    obtain ⟨hle, hn⟩ := slotCount_step cur we n h
    rw [slotLoop_unfold, if_pos hle, List.range_succ_eq_map, List.map_cons, List.map_map]
    have hmap : (candidate cur ∘ Nat.succ) = candidate (cur + 1800000) := by
      funext k
      exact candidate_succ cur k
    rw [hmap, candidate_zero]
    by_cases hf : slotFree ev ⟨cur, cur + 1800000⟩ = true
    · rw [if_pos hf, ih _ _ hn, List.filter_cons_of_pos hf]
      simp
    · rw [if_neg hf, ih _ _ hn, List.filter_cons_of_neg hf]

/-- The slot computation is the filter of the candidate sequence by `slotFree`. -/
theorem computeSlots_eq (ev : List BusyEvent) (ws we : Int) :
    computeSlots ev ws we = (candidates ws we).filter (slotFree ev) := by
  unfold computeSlots candidates
  rw [slotLoop_eq_aux ev we _ ws [] rfl]
  simp

theorem generated_iff (ws we : Int) (k : Nat) :
    generated ws we k ↔ k < slotCount ws we := by
  unfold generated
  rw [candidate_endTime]
  simp only [slotCount, SLOT_DURATION_MINUTES]
  omega

theorem candidate_injective (ws : Int) : Function.Injective (candidate ws) := by
  intro a b h
  have h1 := congrArg Slot.startTime h
  rw [candidate_startTime, candidate_startTime] at h1
  omega

theorem mem_candidates (ws we : Int) (s : Slot) :
    s ∈ candidates ws we ↔ ∃ k, generated ws we k ∧ candidate ws k = s := by
  simp only [candidates, List.mem_map, List.mem_range, generated_iff]

theorem candidate_mem_candidates (ws we : Int) (k : Nat) :
    candidate ws k ∈ candidates ws we ↔ generated ws we k := by
  rw [mem_candidates]
  constructor
  · rintro ⟨j, hj, hjk⟩
    rwa [← candidate_injective ws hjk]
  · intro h
    exact ⟨k, h, rfl⟩

theorem slotFree_iff (ev : List BusyEvent) (s : Slot) :
    slotFree ev s = true ↔
      ∀ event ∈ ev, ¬ (event.startTime < s.endTime ∧ s.startTime < event.endTime) := by
  simp only [slotFree, eventOverlaps, Bool.not_eq_true', List.any_eq_false, Bool.and_eq_true,
    decide_eq_true_eq, gt_iff_lt]

theorem mem_computeSlots (ev : List BusyEvent) (ws we : Int) (s : Slot) :
    s ∈ computeSlots ev ws we ↔ s ∈ candidates ws we ∧ slotFree ev s = true := by
  rw [computeSlots_eq, List.mem_filter]

theorem candidates_pairwise_lt (ws we : Int) :
    (candidates ws we).Pairwise (fun a b => a.startTime < b.startTime) := by
  unfold candidates
  rw [List.pairwise_map]
  refine (List.pairwise_lt_range _).imp ?_
  intro a b hab
  rw [candidate_startTime, candidate_startTime]
  omega

theorem candidates_pairwise_apart (ws we : Int) :
    (candidates ws we).Pairwise (fun a b => a.endTime ≤ b.startTime) := by
  unfold candidates
  rw [List.pairwise_map]
  refine (List.pairwise_lt_range _).imp ?_
  intro a b hab
  rw [candidate_endTime, candidate_startTime]
  omega

theorem candidates_chain (ws : Int) (n : Nat) :
    List.Chain' (fun a b : Slot => b.startTime = a.endTime)
      ((List.range n).map (candidate ws)) := by
  rw [List.chain'_iff_get]
  intro i hi
  simp only [List.get_eq_getElem, List.getElem_map, List.getElem_range]
  rw [candidate_startTime, candidate_endTime]
  push_cast
  ring

/-! ## The available-slots computation -/

/-- C1: a candidate slot generated inside the working window is in the result
of the slot loop exactly when no busy event overlaps it in the half-open sense
(`event.start < candidate.end` and `candidate.start < event.end`); in
particular, when every busy event ends at or before the candidate's start or
starts at or after its end (touching at an endpoint included), the candidate
is in the result. -/
theorem slot_available_iff_no_overlap (googleEvents : List BusyEvent)
    (workingStart workingEnd : Int) (k : Nat)
    (hk : generated workingStart workingEnd k) :
    (candidate workingStart k ∈ computeSlots googleEvents workingStart workingEnd ↔
        ∀ event ∈ googleEvents,
          ¬ (event.startTime < (candidate workingStart k).endTime
              ∧ (candidate workingStart k).startTime < event.endTime))
      ∧ ((∀ event ∈ googleEvents,
            event.endTime ≤ (candidate workingStart k).startTime
              ∨ (candidate workingStart k).endTime ≤ event.startTime) →
          candidate workingStart k ∈ computeSlots googleEvents workingStart workingEnd) := by
  have key : candidate workingStart k ∈ computeSlots googleEvents workingStart workingEnd ↔
      ∀ event ∈ googleEvents,
        ¬ (event.startTime < (candidate workingStart k).endTime
            ∧ (candidate workingStart k).startTime < event.endTime) := by
    rw [mem_computeSlots, candidate_mem_candidates, slotFree_iff]
    exact and_iff_right hk
  refine ⟨key, fun h => key.2 ?_⟩
  intro event hev hov
  rcases h event hev with h1 | h1 <;> omega

/-- Witness of C1: window 10:00-18:00 on 2024-06-03 (Los Angeles), busy
12:30-13:00 and 13:30-14:00, candidate 13:00-13:30 (k = 6). -/
theorem slot_available_iff_no_overlap_witness :
    generated 1717434000000 1717462800000 6 ∧
      candidate 1717434000000 6 ∈
        computeSlots [⟨1717443000000, 1717444800000⟩, ⟨1717446600000, 1717448400000⟩]
          1717434000000 1717462800000 :=
  ⟨by decide,
    (slot_available_iff_no_overlap
        [⟨1717443000000, 1717444800000⟩, ⟨1717446600000, 1717448400000⟩]
        1717434000000 1717462800000 6 (by decide)).2 (by decide)⟩

/-- C2: with `workingEnd > workingStart` and no busy event, the slot loop
returns exactly `floor((workingEnd - workingStart) / 30min)` slots; the `i`-th
one is `[workingStart + i * 30min, workingStart + (i + 1) * 30min)`, so the
first starts at `workingStart`, each lasts 30 minutes, each starts where the
previous one ends, and no two overlap. -/
theorem empty_busy_full_window (workingStart workingEnd : Int)
    (h : workingStart < workingEnd) :
    ((computeSlots [] workingStart workingEnd).length : Int)
        = (workingEnd - workingStart) / 1800000
      ∧ (∀ i, i < (computeSlots [] workingStart workingEnd).length →
          (computeSlots [] workingStart workingEnd)[i]?
            = some { startTime := workingStart + 1800000 * (i : Int),
                     endTime := workingStart + 1800000 * (i : Int) + 1800000 })
      ∧ (∀ s, (computeSlots [] workingStart workingEnd).head? = some s →
          s.startTime = workingStart)
      ∧ (∀ s ∈ computeSlots [] workingStart workingEnd, s.endTime = s.startTime + 1800000)
      ∧ List.Chain' (fun a b : Slot => b.startTime = a.endTime)
          (computeSlots [] workingStart workingEnd)
      ∧ List.Pairwise (fun a b : Slot => a.endTime ≤ b.startTime)
          (computeSlots [] workingStart workingEnd) := by
  have hall : computeSlots [] workingStart workingEnd = candidates workingStart workingEnd := by
    rw [computeSlots_eq, List.filter_eq_self]
    intro s _
    simp [slotFree]
  have hlen : (candidates workingStart workingEnd).length = slotCount workingStart workingEnd := by
    simp [candidates]
  rw [hall]
  refine ⟨?_, ?_, ?_, ?_, ?_, candidates_pairwise_apart _ _⟩
  · rw [hlen]
    simp only [slotCount, SLOT_DURATION_MINUTES]
    omega
  · intro i hi
    rw [hlen] at hi
    simp [candidates, List.getElem?_map, List.getElem?_range hi, candidate_eq]
  · intro s hs
    unfold candidates at hs
    cases hcount : slotCount workingStart workingEnd with
    | zero => simp [hcount] at hs
    | succ n =>
      rw [hcount, List.range_succ_eq_map] at hs
      simp only [List.map_cons, List.head?_cons, Option.some.injEq] at hs
      rw [← hs, candidate_startTime]
      simp
  · intro s hs
    obtain ⟨k, _, rfl⟩ := (mem_candidates _ _ _).1 hs
    rw [candidate_startTime, candidate_endTime]
  · exact candidates_chain _ _

/-- Witness of C2: the window 10:00-18:00 on 2024-06-03 (Los Angeles). -/
theorem empty_busy_full_window_witness :
    (1717434000000 : Int) < 1717462800000
      ∧ ((computeSlots [] 1717434000000 1717462800000).length : Int) = 16 :=
  ⟨by decide, (empty_busy_full_window 1717434000000 1717462800000 (by decide)).1⟩

/-- C3: a candidate slot that a busy event fully contains (exact
boundary-to-boundary cover included) is absent from the result; when there is
a single busy event, every candidate that ends at or before its start or
starts at or after its end is present. On the window 10:00-18:00 of 2024-06-03
(Los Angeles) with busy 13:00-13:30 the result has 15 slots, without
13:00-13:30 and with 12:30-13:00 and 13:30-14:00. -/
theorem containing_busy_excludes_slot :
    (∀ (googleEvents : List BusyEvent) (workingStart workingEnd : Int) (k : Nat)
        (event : BusyEvent),
        generated workingStart workingEnd k → event ∈ googleEvents →
        event.startTime ≤ (candidate workingStart k).startTime →
        (candidate workingStart k).endTime ≤ event.endTime →
        candidate workingStart k ∉ computeSlots googleEvents workingStart workingEnd)
      ∧ (∀ (event : BusyEvent) (workingStart workingEnd : Int) (k : Nat),
        generated workingStart workingEnd k →
        ((candidate workingStart k).endTime ≤ event.startTime
          ∨ event.endTime ≤ (candidate workingStart k).startTime) →
        candidate workingStart k ∈ computeSlots [event] workingStart workingEnd)
      ∧ (computeSlots [⟨1717444800000, 1717446600000⟩] 1717434000000 1717462800000).length = 15
      ∧ (⟨1717444800000, 1717446600000⟩ : Slot) ∉
          computeSlots [⟨1717444800000, 1717446600000⟩] 1717434000000 1717462800000
      ∧ (⟨1717443000000, 1717444800000⟩ : Slot) ∈
          computeSlots [⟨1717444800000, 1717446600000⟩] 1717434000000 1717462800000
      ∧ (⟨1717446600000, 1717448400000⟩ : Slot) ∈
          computeSlots [⟨1717444800000, 1717446600000⟩] 1717434000000 1717462800000 := by
  refine ⟨?_, ?_, ?_, ?_, ?_, ?_⟩
  · intro googleEvents workingStart workingEnd k event _ hev h1 h2 hmem
    rw [mem_computeSlots, slotFree_iff] at hmem
    apply hmem.2 event hev
    have hs := candidate_startTime workingStart k
    have he := candidate_endTime workingStart k
    constructor <;> omega
  · intro event workingStart workingEnd k hk h
    rw [mem_computeSlots, candidate_mem_candidates, slotFree_iff]
    refine ⟨hk, ?_⟩
    intro e he
    rw [List.mem_singleton] at he
    subst he
    rcases h with h | h <;> omega
  · rw [computeSlots_eq]; decide
  · rw [computeSlots_eq]; decide
  · rw [computeSlots_eq]; decide
  · rw [computeSlots_eq]; decide

/-- Witness of C3: busy 12:45-13:45 contains the candidate 13:00-13:30 (k = 6)
of the window 10:00-18:00. -/
theorem containing_busy_excludes_slot_witness :
    generated 1717434000000 1717462800000 6
      ∧ candidate 1717434000000 6 ∉
          computeSlots [⟨1717443900000, 1717447500000⟩] 1717434000000 1717462800000 :=
  ⟨by decide,
    containing_busy_excludes_slot.1 [⟨1717443900000, 1717447500000⟩]
      1717434000000 1717462800000 6 ⟨1717443900000, 1717447500000⟩
      (by decide) (by decide) (by decide) (by decide)⟩

/-- C4: the result of the slot loop is in chronological order: slot starts are
strictly increasing, the result is a subsequence of the candidate sequence
`workingStart + k * 30min` (k = 0, 1, ...), and every member ends at or before
`workingEnd`. -/
theorem slots_chronological (googleEvents : List BusyEvent) (workingStart workingEnd : Int) :
    List.Pairwise (fun a b : Slot => a.startTime < b.startTime)
        (computeSlots googleEvents workingStart workingEnd)
      ∧ List.Sublist (computeSlots googleEvents workingStart workingEnd)
          ((List.range (slotCount workingStart workingEnd)).map
            (fun (k : Nat) =>
              Slot.mk (workingStart + 1800000 * (k : Int))
                (workingStart + 1800000 * (k : Int) + 1800000)))
      ∧ (∀ s ∈ computeSlots googleEvents workingStart workingEnd, s.endTime ≤ workingEnd) := by
  have hsub : List.Sublist (computeSlots googleEvents workingStart workingEnd)
      (candidates workingStart workingEnd) := by
    rw [computeSlots_eq]
    exact List.filter_sublist _
  refine ⟨(candidates_pairwise_lt _ _).sublist hsub, ?_, ?_⟩
  · have hfun : candidate workingStart = fun (k : Nat) =>
        Slot.mk (workingStart + 1800000 * (k : Int))
          (workingStart + 1800000 * (k : Int) + 1800000) := by
      funext k
      rw [candidate_eq]
    rw [← hfun]
    exact hsub
  · intro s hs
    obtain ⟨k, hk, rfl⟩ := (mem_candidates _ _ _).1 (hsub.subset hs)
    exact hk

/-! ## The 24-hour lead time of booking and cancellation -/

theorem within24Hours_some (start now : Int) :
    within24Hours (some start) now = true ↔ start - now < 86400000 := by
  simp only [within24Hours, diffHours, Option.map_some', numLt, decide_eq_true_eq]
  rw [div_lt_iff₀ (by norm_num)]
  have h : ((24 : ℚ) * 3600000) = ((86400000 : Int) : ℚ) := by norm_num
  rw [h, Int.cast_lt]

theorem within24Hours_some_false (start now : Int) :
    within24Hours (some start) now = false ↔ 86400000 ≤ start - now := by
  rw [← Bool.not_eq_true, within24Hours_some]
  omega

theorem bookHandler_at_gate (env : BookEnv) (hreach : env.reachesGate = true) :
    bookHandler env =
      if within24Hours env.lessonStart env.now then
        { response := errorResponse 403 "Bookings must be made at least 24 hours in advance.",
          effects := [] }
      else
        match env.client with
        | .error _ => bookCatch
        | .ok _ =>
          match env.insertResult with
          | .error _ => bookCatch
          | .ok _ =>
            { response := messageResponse 201 "✅ Appointment created in Google Calendar",
              effects := Effect.eventsInsert :: emailEffects env.emailResult } := by
  unfold BookEnv.reachesGate at hreach
  simp only [Bool.and_eq_true] at hreach
  obtain ⟨⟨⟨⟨⟨⟨⟨h1, h2⟩, h3⟩, h4⟩, h5⟩, h6⟩, ht⟩, hu⟩ := hreach
  unfold bookHandler
  cases hteacher : env.teacher with
  | error e => rw [hteacher] at ht; simp at ht
  | ok teacher =>
    cases hstudent : env.student with
    | error e => rw [hstudent] at hu; simp at hu
    | ok student =>
      rw [hteacher] at ht
      rw [hstudent] at hu
      simp only [Bool.not_eq_true'] at ht hu
      simp [h1, h2, h3, h4, h5, h6, ht, hu]

/-- C5: in `POST /calendar/book`, for a request that reaches the
advance-booking check with a lesson start that is an instant, the handler
answers 403 exactly when `lessonStart - now` is below 24 hours, and goes on to
the calendar insert (answering 201, or 500 if the insert fails) exactly when
the difference is at least 24 hours. A start exactly 24 hours ahead passes; a
start 24 hours minus one second ahead is rejected. -/
theorem booking_gate_iff_24h (env : BookEnv) (lessonStart : Int)
    (hreach : env.reachesGate = true) (hstart : env.lessonStart = some lessonStart) :
    ((bookHandler env).response.status = 403 ↔ lessonStart - env.now < 24 * 60 * 60 * 1000)
      ∧ (((bookHandler env).response.status = 201 ∨ (bookHandler env).response.status = 500) ↔
          24 * 60 * 60 * 1000 ≤ lessonStart - env.now)
      ∧ (24 * 60 * 60 * 1000 ≤ lessonStart - env.now →
          env.client = .ok () → env.insertResult = .ok () →
          (bookHandler env).response.status = 201
            ∧ Effect.eventsInsert ∈ (bookHandler env).effects)
      ∧ (lessonStart = env.now + 24 * 60 * 60 * 1000 →
          (bookHandler env).response.status ≠ 403)
      ∧ (lessonStart = env.now + 24 * 60 * 60 * 1000 - 1000 →
          (bookHandler env).response.status = 403) := by
  have hgate := bookHandler_at_gate env hreach
  rw [hstart] at hgate
  have hstatus : ((bookHandler env).response.status = 403 ↔ lessonStart - env.now < 86400000)
      ∧ (((bookHandler env).response.status = 201 ∨ (bookHandler env).response.status = 500) ↔
          86400000 ≤ lessonStart - env.now) := by
    by_cases hw : within24Hours (some lessonStart) env.now = true
    · have hlt := (within24Hours_some _ _).1 hw
      rw [hgate, if_pos hw]
      simp only [errorResponse]
      constructor
      · simp [hlt]
      · constructor
        · rintro (h | h) <;> simp at h
        · intro h; omega
    · have hge := (within24Hours_some_false _ _).1 (by simpa using hw)
      rw [hgate, if_neg hw]
      have hcases : ∀ o : Outcome, o = bookCatch ∨
          o = { response := messageResponse 201 "✅ Appointment created in Google Calendar",
                effects := Effect.eventsInsert :: emailEffects env.emailResult } →
          (o.response.status = 403 ↔ lessonStart - env.now < 86400000)
            ∧ ((o.response.status = 201 ∨ o.response.status = 500) ↔
                86400000 ≤ lessonStart - env.now) := by
        rintro o (rfl | rfl)
        · simp only [bookCatch, errorResponse]
          constructor
          · constructor
            · intro h; simp at h
            · intro h; omega
          · simp [hge]
        · simp only [messageResponse]
          constructor
          · constructor
            · intro h; simp at h
            · intro h; omega
          · simp [hge]
      apply hcases
      cases env.client with
      | error e => left; rfl
      | ok c =>
        cases env.insertResult with
        | error e => left; rfl
        | ok r => right; rfl
  refine ⟨by simpa using hstatus.1, by simpa using hstatus.2, ?_, ?_, ?_⟩
  · intro hge hclient hinsert
    have hw : within24Hours (some lessonStart) env.now = false :=
      (within24Hours_some_false _ _).2 (by omega)
    rw [hgate, hw, hclient, hinsert]
    simp [messageResponse]
  · intro heq h403
    have := hstatus.1.1 h403
    omega
  · intro heq
    apply hstatus.1.2
    omega

/-- Witness of C5: at clock reading 0, a lesson starting exactly 24 hours ahead
is not rejected, and one starting 24 hours minus one second ahead is. -/
theorem booking_gate_iff_24h_witness :
    (bookEnvAt 0 (some 86400000)).reachesGate = true
      ∧ (bookHandler (bookEnvAt 0 (some 86400000))).response.status ≠ 403
      ∧ (bookHandler (bookEnvAt 0 (some 86399000))).response.status = 403 :=
  ⟨rfl,
    (booking_gate_iff_24h (bookEnvAt 0 (some 86400000)) 86400000
      rfl rfl).2.2.2.1 (by decide),
    (booking_gate_iff_24h (bookEnvAt 0 (some 86399000)) 86399000
      rfl rfl).2.2.2.2 (by decide)⟩

theorem cancelHandler_at_policy (env : CancelEnv) (hreach : env.reachesPolicy = true) :
    cancelHandler env =
      if sessionMismatch env.sessionUserId env.studentId then
        { response := errorResponse 403 "Unauthorized: Invalid student ID", effects := [] }
      else
        match env.client with
        | .error _ => cancelCatch
        | .ok _ =>
          match env.event with
          | .error _ => cancelCatch
          | .ok event =>
            if eventNotOwned event.privateStudentId env.studentId then
              { response := errorResponse 403 "Unauthorized: You cannot cancel this event",
                effects := [] }
            else
              match startTimeISO event with
              | none =>
                { response := errorResponse 400 "Event start time is missing", effects := [] }
              | some eventStart =>
                if within24Hours (some eventStart) env.now then
                  { response := errorResponse 403
                      "Cancellations are not allowed within 24 hours of the lesson start time.",
                    effects := [] }
                else
                  match env.deleteResult with
                  | .error _ => cancelCatch
                  | .ok _ =>
                    { response := messageResponse 200 "✅ Lesson cancelled",
                      effects := Effect.eventsDelete :: emailEffects env.emailResult } := by
  unfold CancelEnv.reachesPolicy at hreach
  simp only [Bool.and_eq_true] at hreach
  obtain ⟨⟨⟨⟨h1, h2⟩, h3⟩, ht⟩, hu⟩ := hreach
  unfold cancelHandler
  cases hteacher : env.teacher with
  | error e => rw [hteacher] at ht; simp at ht
  | ok teacher =>
    cases hstudent : env.student with
    | error e => rw [hstudent] at hu; simp at hu
    | ok student =>
      rw [hteacher] at ht
      rw [hstudent] at hu
      simp only [Bool.not_eq_true'] at ht hu
      simp [h1, h2, h3, ht, hu]

theorem sessionMismatch_iff (sessionUserId : Option JsVal) (studentId : JsVal) :
    sessionMismatch sessionUserId studentId = true ↔ sessionUserId ≠ some studentId := by
  cases sessionUserId with
  | none => simp [sessionMismatch]
  | some id => simp [sessionMismatch]

theorem eventNotOwned_iff (privateStudentId : Option String) (studentId : JsVal) :
    eventNotOwned privateStudentId studentId = true ↔
      ∀ s, privateStudentId = some s → s = "" ∨ s ≠ studentId.toStr := by
  cases privateStudentId with
  | none => simp [eventNotOwned]
  | some s => simp [eventNotOwned]

/-- C6: in `DELETE /calendar/cancel`, for a request that reaches the policy
checks (the given student id being a string or a safe integer, whose
`toString()` is its decimal text): when the signed-in user is missing or is not the given student, the
answer is 403 Unauthorized whatever the event; when the fetched event's
recorded `studentId` is missing, empty or differs from the given student, the
answer is 403 Unauthorized whatever the event's start time; otherwise, for an
event starting at `eventStart`, the answer is the 403 "too late" rejection
exactly when `eventStart - now` is below 24 hours, and otherwise the handler
goes on to delete the event (200, or 500 if the delete fails). -/
theorem cancel_policy_decision (env : CancelEnv) (hreach : env.reachesPolicy = true) :
    (env.sessionUserId ≠ some env.studentId →
        cancelHandler env =
          { response := errorResponse 403 "Unauthorized: Invalid student ID", effects := [] })
      ∧ (∀ event : CalEvent,
          env.sessionUserId = some env.studentId → env.client = .ok () →
          env.event = .ok event →
          (∀ s, event.privateStudentId = some s → s = "" ∨ s ≠ env.studentId.toStr) →
          cancelHandler env =
            { response := errorResponse 403 "Unauthorized: You cannot cancel this event",
              effects := [] })
      ∧ (∀ (event : CalEvent) (eventStart : Int),
          env.sessionUserId = some env.studentId → env.client = .ok () →
          env.event = .ok event →
          (∃ s, event.privateStudentId = some s ∧ s ≠ "" ∧ s = env.studentId.toStr) →
          startTimeISO event = some eventStart →
          ((cancelHandler env =
              { response := errorResponse 403
                  "Cancellations are not allowed within 24 hours of the lesson start time.",
                effects := [] }
              ↔ eventStart - env.now < 24 * 60 * 60 * 1000)
            ∧ ((cancelHandler env).response.status = 403
              ↔ eventStart - env.now < 24 * 60 * 60 * 1000)
            ∧ (24 * 60 * 60 * 1000 ≤ eventStart - env.now → env.deleteResult = .ok () →
                (cancelHandler env).response = messageResponse 200 "✅ Lesson cancelled"
                  ∧ Effect.eventsDelete ∈ (cancelHandler env).effects))) := by
  have hpol := cancelHandler_at_policy env hreach
  refine ⟨?_, ?_, ?_⟩
  · intro hne
    rw [hpol, if_pos ((sessionMismatch_iff _ _).2 hne)]
  · intro event hsess hclient hevent hown
    have hs : ¬ sessionMismatch env.sessionUserId env.studentId = true := by
      rw [sessionMismatch_iff]; exact fun h => h hsess
    rw [hpol, if_neg hs, hclient, hevent]
    simp only
    rw [if_pos ((eventNotOwned_iff _ _).2 hown)]
  · intro event eventStart hsess hclient hevent hown hstart
    have hs : ¬ sessionMismatch env.sessionUserId env.studentId = true := by
      rw [sessionMismatch_iff]; exact fun h => h hsess
    have ho : ¬ eventNotOwned event.privateStudentId env.studentId = true := by
      rw [eventNotOwned_iff]
      obtain ⟨s, hs1, hs2, hs3⟩ := hown
      intro h
      rcases h s hs1 with h | h
      · exact hs2 h
      · exact h hs3
    have hrest : cancelHandler env =
        if within24Hours (some eventStart) env.now then
          { response := errorResponse 403
              "Cancellations are not allowed within 24 hours of the lesson start time.",
            effects := [] }
        else
          match env.deleteResult with
          | .error _ => cancelCatch
          | .ok _ =>
            { response := messageResponse 200 "✅ Lesson cancelled",
              effects := Effect.eventsDelete :: emailEffects env.emailResult } := by
      rw [hpol, if_neg hs, hclient, hevent]
      simp only
      rw [if_neg ho, hstart]
    by_cases hw : within24Hours (some eventStart) env.now = true
    · have hlt := (within24Hours_some _ _).1 hw
      rw [hrest, if_pos hw]
      refine ⟨?_, ?_, ?_⟩
      · simp only [true_iff]; omega
      · simp only [errorResponse, true_iff]; omega
      · intro hge; omega
    · have hge := (within24Hours_some_false _ _).1 (by simpa using hw)
      rw [hrest, if_neg hw]
      refine ⟨?_, ?_, ?_⟩
      · constructor
        · intro h
          exfalso
          cases hdel : env.deleteResult with
          | error e => rw [hdel] at h; simp [cancelCatch, errorResponse] at h
          | ok r => rw [hdel] at h; simp [messageResponse, errorResponse] at h
        · intro h; omega
      · constructor
        · intro h
          exfalso
          cases hdel : env.deleteResult with
          | error e => rw [hdel] at h; simp [cancelCatch, errorResponse] at h
          | ok r => rw [hdel] at h; simp [messageResponse] at h
        · intro h; omega
      · intro _ hdel
        rw [hdel]
        simp

/-- Witness of C6: student 7, signed in, cancels at clock reading 0 an event
recorded for student "7" that starts 24 hours ahead: the handler deletes it. A
session of user 8 gets 403 for the same request. -/
theorem cancel_policy_decision_witness :
    (cancelEnvAt 0 (some (.num 7 (by decide))) ⟨some "7", some 86400000, none⟩).reachesPolicy = true
      ∧ (cancelHandler (cancelEnvAt 0 (some (.num 7 (by decide))) ⟨some "7", some 86400000, none⟩)).response
          = messageResponse 200 "✅ Lesson cancelled"
      ∧ cancelHandler (cancelEnvAt 0 (some (.num 8 (by decide))) ⟨some "7", some 86400000, none⟩)
          = { response := errorResponse 403 "Unauthorized: Invalid student ID", effects := [] } :=
  ⟨rfl,
    (((cancel_policy_decision (cancelEnvAt 0 (some (.num 7 (by decide))) ⟨some "7", some 86400000, none⟩)
      rfl).2.2
      ⟨some "7", some 86400000, none⟩ 86400000 rfl rfl rfl
      ⟨"7", rfl, by decide, by decide⟩ rfl).2.2 (by decide) rfl).1,
    (cancel_policy_decision (cancelEnvAt 0 (some (.num 8 (by decide))) ⟨some "7", some 86400000, none⟩)
      rfl).1 (by decide)⟩

/-! ## The weekend check -/

/-- C7: for a request that reaches the weekend check (date given, teacher found
with a Google token, client authorized) and a date whose weekday in the
handler's time zone is Saturday (6) or Sunday (7), the handler answers 200 with
an empty `availableSlots` and the message "No availability on weekends.", and
no error, whatever the calendar reads return (even if they would throw) and
whatever the working window is. -/
theorem weekend_no_availability (env : SlotsEnv) (date token : String) (teacher : UserRow)
    (hdate : env.date = some date) (hdate_ne : date ≠ "")
    (hteacher : env.teacher = .ok (some teacher))
    (htoken : teacher.googleToken = some token) (htoken_ne : token ≠ "")
    (hclient : env.client = .ok ())
    (hweekend : env.weekday = some 6 ∨ env.weekday = some 7) :
    availableSlotsHandler env = slotsResponse [] (some "No availability on weekends.") none
      ∧ (availableSlotsHandler env).status = 200
      ∧ (availableSlotsHandler env).availableSlots = some []
      ∧ (availableSlotsHandler env).error = none
      ∧ ∀ (calendars : Except String (List (Except String (List GEvent))))
          (workingStart workingEnd : Option Int),
          availableSlotsHandler
              { env with calendars := calendars, workingStart := workingStart,
                         workingEnd := workingEnd }
            = availableSlotsHandler env := by
  have key : ∀ e : SlotsEnv, e.date = some date → e.teacher = .ok (some teacher) →
      e.client = .ok () → (e.weekday = some 6 ∨ e.weekday = some 7) →
      availableSlotsHandler e = slotsResponse [] (some "No availability on weekends.") none := by
    intro e h1 h2 h3 h4
    unfold availableSlotsHandler
    rw [h1, h2, h3]
    rcases h4 with h4 | h4 <;> simp [h4, htoken, hdate_ne, htoken_ne]
  have hmain := key env hdate hteacher hclient hweekend
  refine ⟨hmain, ?_, ?_, ?_, ?_⟩
  · rw [hmain]; rfl
  · rw [hmain]; rfl
  · rw [hmain]; rfl
  · intro calendars workingStart workingEnd
    rw [hmain]
    exact key _ hdate hteacher hclient hweekend

/-- Witness of C7: Saturday 2024-06-08, with a calendar holding one timed event
and a second calendar whose read throws. -/
theorem weekend_no_availability_witness :
    availableSlotsHandler
        (slotsEnvAt "2024-06-08" (some 6)
          (.ok [.ok [⟨some 1717866000000, some 1717869600000, none, none⟩], .error "read failed"])
          (some 1717866000000) (some 1717894800000))
      = slotsResponse [] (some "No availability on weekends.") none :=
  (weekend_no_availability
      (slotsEnvAt "2024-06-08" (some 6)
        (.ok [.ok [⟨some 1717866000000, some 1717869600000, none, none⟩], .error "read failed"])
        (some 1717866000000) (some 1717894800000))
      "2024-06-08" "token" { role := "TEACHER", googleToken := some "token" }
      rfl (by decide) rfl rfl (by decide) rfl (Or.inl rfl)).1

/-! ## The reminder window -/

theorem reminderSelects_some (now eventStart : Int) :
    reminderSelects now (some eventStart) = true ↔
      now + 172800000 - 30000 ≤ eventStart ∧ eventStart ≤ now + 172800000 + 30000 := by
  simp only [reminderSelects, inReminderWindow, in48HoursStart, in48HoursEnd, Bool.not_eq_true',
    Bool.or_eq_false_iff, decide_eq_false_iff_not, not_lt, gt_iff_lt]
  omega

/-- C8: the reminder job selects a timed event exactly when
`|eventStart - (now + 48h)| <= 30s`, both bounds included; an event at
`now + 48h + 10s` is selected and one at `now + 48h + 40s` is not. -/
theorem reminder_selects_iff_in_window (now eventStart : Int) :
    (reminderSelects now (some eventStart) = true ↔
        |eventStart - (now + 48 * 60 * 60 * 1000)| ≤ 30 * 1000)
      ∧ reminderSelects now (some (now + 48 * 60 * 60 * 1000 - 30 * 1000)) = true
      ∧ reminderSelects now (some (now + 48 * 60 * 60 * 1000 + 30 * 1000)) = true
      ∧ reminderSelects now (some (now + 48 * 60 * 60 * 1000 + 10 * 1000)) = true
      ∧ reminderSelects now (some (now + 48 * 60 * 60 * 1000 + 40 * 1000)) = false := by
  refine ⟨?_, ?_, ?_, ?_, ?_⟩
  · rw [reminderSelects_some, abs_le]
    omega
  · rw [reminderSelects_some]; omega
  · rw [reminderSelects_some]; omega
  · rw [reminderSelects_some]; omega
  · rw [← Bool.not_eq_true, reminderSelects_some]; omega

/-! ## `mergeTimeBlocks` -/

theorem mergeLoop_append (rest : List Block) :
    ∀ (done : List Block) (last : Block),
      mergeLoop done last rest = done ++ mergeLoop [] last rest := by
  induction rest with
  | nil => intro done last; simp [mergeLoop]
  | cons current rest ih =>
    intro done last
    by_cases hc : current.1 ≤ last.2
    · simp only [mergeLoop, if_pos hc]
      exact ih _ _
    · simp only [mergeLoop, if_neg hc]
      rw [ih (done ++ [last]) current, ih ([] ++ [last]) current]
      simp

theorem mergeLoop_cons_merge (last current : Block) (rest : List Block)
    (hc : current.1 ≤ last.2) :
    mergeLoop [] last (current :: rest)
      = mergeLoop [] (last.1, max last.2 current.2) rest := by
  simp only [mergeLoop, if_pos hc]

theorem mergeLoop_cons_push (last current : Block) (rest : List Block)
    (hc : ¬ current.1 ≤ last.2) :
    mergeLoop [] last (current :: rest) = last :: mergeLoop [] current rest := by
  simp only [mergeLoop, if_neg hc]
  rw [mergeLoop_append]
  simp

theorem apart_trans (a b c : Block) (hab : apart a b) (hbc : apart b c) : apart a c := by
  unfold apart at *
  omega

theorem mergeLoop_apart (rest : List Block) :
    ∀ last : Block, last.1 < last.2 → (∀ c ∈ rest, c.1 < c.2) →
      (∃ e tl, mergeLoop [] last rest = (last.1, e) :: tl ∧ last.1 < e)
        ∧ List.Chain' apart (mergeLoop [] last rest) := by
  induction rest with
  | nil =>
    intro last hl _
    refine ⟨⟨last.2, [], by simp [mergeLoop], hl⟩, ?_⟩
    simp [mergeLoop]
  | cons current rest ih =>
    intro last hl hrest
    have hcur : current.1 < current.2 := hrest current (List.mem_cons_self _ _)
    have hrest' : ∀ c ∈ rest, c.1 < c.2 := fun c hc => hrest c (List.mem_cons_of_mem _ hc)
    by_cases hc : current.1 ≤ last.2
    · rw [mergeLoop_cons_merge last current rest hc]
      have hl' : (last.1, max last.2 current.2).1 < (last.1, max last.2 current.2).2 :=
        lt_of_lt_of_le hl (le_max_left _ _)
      exact ih (last.1, max last.2 current.2) hl' hrest'
    · rw [mergeLoop_cons_push last current rest hc]
      obtain ⟨⟨e, tl, heq, hlt⟩, hchain⟩ := ih current hcur hrest'
      refine ⟨⟨last.2, _, rfl, hl⟩, ?_⟩
      rw [heq] at hchain ⊢
      refine List.Chain'.cons ?_ hchain
      exact ⟨by simp only; omega, hlt⟩

theorem mergeLoop_valid_pairwise (last : Block) (rest : List Block)
    (hl : last.1 < last.2) (hrest : ∀ c ∈ rest, c.1 < c.2) :
    (∀ b ∈ mergeLoop [] last rest, b.1 < b.2)
      ∧ List.Pairwise apart (mergeLoop [] last rest) := by
  obtain ⟨⟨e, tl, heq, hlt⟩, hchain⟩ := mergeLoop_apart rest last hl hrest
  have hpw : List.Pairwise apart (mergeLoop [] last rest) := by
    haveI : IsTrans Block apart := ⟨apart_trans⟩
    exact List.chain'_iff_pairwise.1 hchain
  refine ⟨?_, hpw⟩
  rw [heq] at hpw ⊢
  intro b hb
  rcases List.mem_cons.1 hb with rfl | hb
  · exact hlt
  · exact (List.rel_of_pairwise_cons hpw hb).2

theorem mergeTimeBlocks_valid_pairwise (blocks : List Block) (h : ∀ b ∈ blocks, b.1 < b.2) :
    (∀ b ∈ mergeTimeBlocks blocks, b.1 < b.2)
      ∧ List.Pairwise apart (mergeTimeBlocks blocks) := by
  unfold mergeTimeBlocks
  split
  · simp
  · have hperm := List.perm_insertionSort startLe blocks
    cases hsort : List.insertionSort startLe blocks with
    | nil => simp
    | cons first rest =>
      rw [hsort] at hperm
      have hall : ∀ c ∈ first :: rest, c.1 < c.2 := fun c hc => h c (hperm.mem_iff.1 hc)
      exact mergeLoop_valid_pairwise first rest (hall first (List.mem_cons_self _ _))
        (fun c hc => hall c (List.mem_cons_of_mem _ hc))

/-- C9: for blocks that each have `start < end`, `mergeTimeBlocks` returns
blocks in strictly increasing order of start, each starting strictly after the
end of the block before it; hence no two returned blocks overlap or touch. -/
theorem mergeTimeBlocks_sorted_apart (blocks : List Block) (h : ∀ b ∈ blocks, b.1 < b.2) :
    List.Pairwise (fun a b : Block => a.1 < b.1) (mergeTimeBlocks blocks)
      ∧ List.Chain' (fun a b : Block => a.2 < b.1) (mergeTimeBlocks blocks)
      ∧ List.Pairwise (fun a b : Block => a.2 < b.1) (mergeTimeBlocks blocks) := by
  obtain ⟨hvalid, hpw⟩ := mergeTimeBlocks_valid_pairwise blocks h
  have hpw2 : List.Pairwise (fun a b : Block => a.2 < b.1) (mergeTimeBlocks blocks) :=
    hpw.imp (fun hab => hab.1)
  refine ⟨?_, ?_, hpw2⟩
  · refine hpw.imp_of_mem ?_
    intro a b ha _ hab
    have := hvalid a ha
    exact lt_trans this hab.1
  · exact List.Pairwise.chain' hpw2

/-- Witness of C9: five blocks, out of order, some overlapping and two touching. -/
theorem mergeTimeBlocks_sorted_apart_witness :
    mergeTimeBlocks [(5, 7), (1, 3), (3, 4), (13, 14), (6, 11)] = [(1, 4), (5, 11), (13, 14)]
      ∧ List.Chain' (fun a b : Block => a.2 < b.1)
          (mergeTimeBlocks [(5, 7), (1, 3), (3, 4), (13, 14), (6, 11)]) :=
  ⟨by decide,
    (mergeTimeBlocks_sorted_apart [(5, 7), (1, 3), (3, 4), (13, 14), (6, 11)]
      (by decide)).2.1⟩

theorem mergeLoop_covers (rest : List Block) :
    ∀ last : Block, (∀ c ∈ rest, last.1 ≤ c.1) → List.Pairwise startLe rest →
      ∀ t : Int, (∃ r ∈ mergeLoop [] last rest, covers r t) ↔
        (covers last t ∨ ∃ c ∈ rest, covers c t) := by
  induction rest with
  | nil => intro last _ _ t; simp [mergeLoop]
  | cons current rest ih =>
    intro last hle hsorted t
    have hcur : last.1 ≤ current.1 := hle current (List.mem_cons_self _ _)
    have hrest : ∀ c ∈ rest, last.1 ≤ c.1 := fun c hc => hle c (List.mem_cons_of_mem _ hc)
    rw [List.pairwise_cons] at hsorted
    by_cases hc : current.1 ≤ last.2
    · rw [mergeLoop_cons_merge last current rest hc,
        ih (last.1, max last.2 current.2) hrest hsorted.2 t]
      simp only [List.mem_cons, exists_eq_or_imp]
      rw [← or_assoc]
      apply or_congr_left
      simp only [covers, lt_max_iff]
      constructor
      · rintro ⟨h1, h2 | h2⟩
        · exact Or.inl ⟨h1, h2⟩
        · by_cases h3 : t < last.2
          · exact Or.inl ⟨h1, h3⟩
          · exact Or.inr ⟨by omega, h2⟩
      · rintro (⟨h1, h2⟩ | ⟨h1, h2⟩)
        · exact ⟨h1, Or.inl h2⟩
        · exact ⟨by omega, Or.inr h2⟩
    · rw [mergeLoop_cons_push last current rest hc]
      simp only [List.mem_cons, exists_eq_or_imp]
      rw [ih current (fun c hc => hsorted.1 c hc) hsorted.2 t]

theorem mergeLoop_contains (rest : List Block) :
    ∀ last : Block, (∀ c ∈ rest, last.1 ≤ c.1) → List.Pairwise startLe rest →
      ∀ b ∈ last :: rest, ∃ r ∈ mergeLoop [] last rest, r.1 ≤ b.1 ∧ b.2 ≤ r.2 := by
  induction rest with
  | nil =>
    intro last _ _ b hb
    rw [List.mem_singleton] at hb
    subst hb
    exact ⟨b, by simp [mergeLoop], le_refl _, le_refl _⟩
  | cons current rest ih =>
    intro last hle hsorted b hb
    have hcur : last.1 ≤ current.1 := hle current (List.mem_cons_self _ _)
    have hrest : ∀ c ∈ rest, last.1 ≤ c.1 := fun c hc => hle c (List.mem_cons_of_mem _ hc)
    rw [List.pairwise_cons] at hsorted
    by_cases hc : current.1 ≤ last.2
    · rw [mergeLoop_cons_merge last current rest hc]
      have ih' := ih (last.1, max last.2 current.2) hrest hsorted.2
      obtain ⟨r, hr, hr1, hr2⟩ := ih' (last.1, max last.2 current.2) (List.mem_cons_self _ _)
      simp only at hr1 hr2
      have hm1 : last.2 ≤ max last.2 current.2 := le_max_left _ _
      have hm2 : current.2 ≤ max last.2 current.2 := le_max_right _ _
      rcases List.mem_cons.1 hb with rfl | hb
      · exact ⟨r, hr, hr1, le_trans hm1 hr2⟩
      · rcases List.mem_cons.1 hb with rfl | hb
        · exact ⟨r, hr, le_trans hr1 hcur, le_trans hm2 hr2⟩
        · exact ih' b (List.mem_cons_of_mem _ hb)
    · rw [mergeLoop_cons_push last current rest hc]
      rcases List.mem_cons.1 hb with rfl | hb
      · exact ⟨b, List.mem_cons_self _ _, le_refl _, le_refl _⟩
      · obtain ⟨r, hr, hr1, hr2⟩ := ih current (fun c hc => hsorted.1 c hc) hsorted.2 b hb
        exact ⟨r, List.mem_cons_of_mem _ hr, hr1, hr2⟩

/-- C10: the instants covered by the result of `mergeTimeBlocks` are exactly
the instants covered by the input (blocks read as half-open ranges): every
input block lies inside one returned block, and an instant covered by a
returned block is covered by some input block; the empty list gives the empty
list. This holds for every list of blocks, in particular when each block has
`start < end`. -/
theorem mergeTimeBlocks_same_cover (blocks : List Block) :
    (∀ t : Int, (∃ r ∈ mergeTimeBlocks blocks, covers r t) ↔ (∃ b ∈ blocks, covers b t))
      ∧ (∀ b ∈ blocks, ∃ r ∈ mergeTimeBlocks blocks, r.1 ≤ b.1 ∧ b.2 ≤ r.2)
      ∧ mergeTimeBlocks [] = [] := by
  refine ⟨?_, ?_, rfl⟩
  · intro t
    unfold mergeTimeBlocks
    split
    · rename_i h0
      simp [List.length_eq_zero.1 h0]
    · have hperm := List.perm_insertionSort startLe blocks
      have hsorted : List.Pairwise startLe (List.insertionSort startLe blocks) :=
        List.sorted_insertionSort startLe blocks
      cases hsort : List.insertionSort startLe blocks with
      | nil =>
        rw [hsort] at hperm
        rw [hperm.symm.eq_nil]
      | cons first rest =>
        rw [hsort] at hperm hsorted
        rw [List.pairwise_cons] at hsorted
        simp only
        rw [mergeLoop_covers rest first hsorted.1 hsorted.2 t]
        constructor
        · rintro (h | ⟨c, hc, h⟩)
          · exact ⟨first, hperm.mem_iff.1 (List.mem_cons_self _ _), h⟩
          · exact ⟨c, hperm.mem_iff.1 (List.mem_cons_of_mem _ hc), h⟩
        · rintro ⟨b, hb, h⟩
          rcases List.mem_cons.1 (hperm.mem_iff.2 hb) with rfl | hb'
          · exact Or.inl h
          · exact Or.inr ⟨b, hb', h⟩
  · intro b hb
    unfold mergeTimeBlocks
    split
    · rename_i h0
      rw [List.length_eq_zero.1 h0] at hb
      simp at hb
    · have hperm := List.perm_insertionSort startLe blocks
      have hsorted : List.Pairwise startLe (List.insertionSort startLe blocks) :=
        List.sorted_insertionSort startLe blocks
      cases hsort : List.insertionSort startLe blocks with
      | nil =>
        rw [hsort] at hperm
        rw [hperm.symm.eq_nil] at hb
        simp at hb
      | cons first rest =>
        rw [hsort] at hperm hsorted
        rw [List.pairwise_cons] at hsorted
        exact mergeLoop_contains rest first hsorted.1 hsorted.2 b (hperm.mem_iff.2 hb)

/-! ## Writes happen only after every check -/

theorem bookHandler_effects_cases (env : BookEnv) :
    (bookHandler env).effects = [] ∨
      ((bookHandler env).response.status = 201 ∧ env.reachesGate = true
        ∧ within24Hours env.lessonStart env.now = false
        ∧ env.client = .ok () ∧ env.insertResult = .ok ()) := by
  by_cases hreach : env.reachesGate = true
  · rw [bookHandler_at_gate env hreach]
    by_cases hw : within24Hours env.lessonStart env.now = true
    · left; rw [if_pos hw]
    · rw [if_neg hw]
      cases hclient : env.client with
      | error e => left; rfl
      | ok c =>
        cases hinsert : env.insertResult with
        | error e => left; rfl
        | ok r =>
          right
          exact ⟨rfl, hreach, by simpa using hw, rfl, rfl⟩
  · left
    unfold BookEnv.reachesGate at hreach
    unfold bookHandler
    split
    · rfl
    · rename_i hfields
      cases hteacher : env.teacher with
      | error e => rfl
      | ok teacher =>
        simp only
        split
        · rfl
        · rename_i hrole
          cases hstudent : env.student with
          | error e => rfl
          | ok student =>
            simp only
            split
            · rfl
            · rename_i hrole2
              exfalso
              apply hreach
              rw [hteacher, hstudent]
              simp only [Bool.or_eq_true, Bool.not_eq_true', not_or, Bool.not_eq_false] at hfields
              simp [hfields, hrole, hrole2]

theorem cancelHandler_effects_cases (env : CancelEnv) :
    (cancelHandler env).effects = [] ∨
      ((cancelHandler env).response.status = 200 ∧ env.reachesPolicy = true
        ∧ sessionMismatch env.sessionUserId env.studentId = false
        ∧ ∃ event eventStart, env.event = .ok event
            ∧ eventNotOwned event.privateStudentId env.studentId = false
            ∧ startTimeISO event = some eventStart
            ∧ within24Hours (some eventStart) env.now = false
            ∧ env.deleteResult = .ok ()) := by
  by_cases hreach : env.reachesPolicy = true
  · rw [cancelHandler_at_policy env hreach]
    by_cases hs : sessionMismatch env.sessionUserId env.studentId = true
    · left; rw [if_pos hs]
    · rw [if_neg hs]
      cases hclient : env.client with
      | error e => left; rfl
      | ok c =>
        cases hevent : env.event with
        | error e => left; rfl
        | ok event =>
          simp only
          by_cases ho : eventNotOwned event.privateStudentId env.studentId = true
          · left; rw [if_pos ho]
          · rw [if_neg ho]
            cases hstart : startTimeISO event with
            | none => left; rfl
            | some eventStart =>
              simp only
              by_cases hw : within24Hours (some eventStart) env.now = true
              · left; rw [if_pos hw]
              · rw [if_neg hw]
                cases hdel : env.deleteResult with
                | error e => left; rfl
                | ok r =>
                  right
                  exact ⟨rfl, hreach, by simpa using hs, event, eventStart, rfl,
                    by simpa using ho, hstart, by simpa using hw, rfl⟩
  · left
    unfold CancelEnv.reachesPolicy at hreach
    unfold cancelHandler
    split
    · rfl
    · rename_i hfields
      cases hteacher : env.teacher with
      | error e => rfl
      | ok teacher =>
        simp only
        split
        · rfl
        · rename_i hrole
          cases hstudent : env.student with
          | error e => rfl
          | ok student =>
            simp only
            split
            · rfl
            · rename_i hrole2
              exfalso
              apply hreach
              rw [hteacher, hstudent]
              simp only [Bool.or_eq_true, Bool.not_eq_true', not_or, Bool.not_eq_false] at hfields
              simp [hfields, hrole, hrole2]

/-- C11: in `POST /calendar/book` and `DELETE /calendar/cancel`, a run that
answers 400, 403 or 404 has performed no write: no event inserted, none
deleted, no email sent. A run in which the event was inserted (deleted) has
passed every check before: fields present, teacher and student found with
their roles, (for cancel) session and event ownership, and the 24-hour test. -/
theorem rejected_request_writes_nothing :
    (∀ env : BookEnv,
        ((bookHandler env).response.status = 400 ∨ (bookHandler env).response.status = 403
          ∨ (bookHandler env).response.status = 404) →
        (bookHandler env).effects = [])
      ∧ (∀ env : CancelEnv,
        ((cancelHandler env).response.status = 400 ∨ (cancelHandler env).response.status = 403
          ∨ (cancelHandler env).response.status = 404) →
        (cancelHandler env).effects = [])
      ∧ (∀ env : BookEnv, Effect.eventsInsert ∈ (bookHandler env).effects →
          env.reachesGate = true ∧ within24Hours env.lessonStart env.now = false)
      ∧ (∀ env : CancelEnv, Effect.eventsDelete ∈ (cancelHandler env).effects →
          env.reachesPolicy = true
            ∧ sessionMismatch env.sessionUserId env.studentId = false
            ∧ ∃ event eventStart, env.event = .ok event
                ∧ eventNotOwned event.privateStudentId env.studentId = false
                ∧ startTimeISO event = some eventStart
                ∧ within24Hours (some eventStart) env.now = false) := by
  refine ⟨?_, ?_, ?_, ?_⟩
  · intro env h
    rcases bookHandler_effects_cases env with he | ⟨h201, _⟩
    · exact he
    · rw [h201] at h
      simp at h
  · intro env h
    rcases cancelHandler_effects_cases env with he | ⟨h200, _⟩
    · exact he
    · rw [h200] at h
      simp at h
  · intro env h
    rcases bookHandler_effects_cases env with he | ⟨_, hreach, hw, _⟩
    · rw [he] at h
      simp at h
    · exact ⟨hreach, hw⟩
  · intro env h
    rcases cancelHandler_effects_cases env with he | ⟨_, hreach, hs, event, eventStart, h1, h2, h3, h4, _⟩
    · rw [he] at h
      simp at h
    · exact ⟨hreach, hs, event, eventStart, h1, h2, h3, h4⟩

/-- Witness of C11: a booking request without `teacherId` is answered 400 and
writes nothing, although the insert and the email would both succeed. -/
theorem rejected_request_writes_nothing_witness :
    (bookHandler { bookEnvAt 0 (some 86400000) with teacherId := .undefined }).response.status = 400
      ∧ (bookHandler { bookEnvAt 0 (some 86400000) with teacherId := .undefined }).effects = [] :=
  ⟨rfl,
    rejected_request_writes_nothing.1
      { bookEnvAt 0 (some 86400000) with teacherId := .undefined } (Or.inl rfl)⟩

/-! ## The available-slots handler after its checks -/

theorem availableSlotsHandler_at_fetch (env : SlotsEnv) (hreach : env.reachesFetch = true) :
    availableSlotsHandler env =
      match env.calendars with
      | .error _ => slotsCatch
      | .ok fetches =>
        slotsResponse (slotsOfWindow (gatherEvents fetches) env.workingStart env.workingEnd)
          none none := by
  unfold SlotsEnv.reachesFetch at hreach
  simp only [Bool.and_eq_true] at hreach
  obtain ⟨⟨⟨hdate, hteacher⟩, hclient⟩, hweekday⟩ := hreach
  unfold availableSlotsHandler
  simp only [Bool.not_eq_true'] at hdate hweekday
  rw [hdate, hweekday]
  cases ht : env.teacher with
  | error e => rw [ht] at hteacher; simp at hteacher
  | ok t =>
    cases t with
    | none => rw [ht] at hteacher; simp at hteacher
    | some teacher =>
      rw [ht] at hteacher
      simp only [Bool.not_eq_true'] at hteacher
      cases hc : env.client with
      | error e => rw [hc] at hclient; simp at hclient
      | ok c => simp [hteacher]

theorem computeSlots_empty_window (googleEvents : List BusyEvent) (workingStart workingEnd : Int)
    (h : workingEnd ≤ workingStart) :
    computeSlots googleEvents workingStart workingEnd = [] := by
  unfold computeSlots
  rw [slotLoop_unfold, if_neg (by omega)]

/-- C12: when `workingEnd <= workingStart`, the slot loop returns the empty
sequence for every busy list (the loop is a total function: it raises
nothing), and a request that reaches the slot computation with such a window is
answered 200 with `availableSlots: []` and no error. -/
theorem empty_window_no_slots (googleEvents : List BusyEvent) (workingStart workingEnd : Int)
    (h : workingEnd ≤ workingStart) :
    computeSlots googleEvents workingStart workingEnd = []
      ∧ ∀ (env : SlotsEnv) (fetches : List (Except String (List GEvent))),
          env.reachesFetch = true → env.calendars = .ok fetches →
          env.workingStart = some workingStart → env.workingEnd = some workingEnd →
          availableSlotsHandler env = slotsResponse [] none none
            ∧ (availableSlotsHandler env).status = 200
            ∧ (availableSlotsHandler env).error = none
            ∧ (availableSlotsHandler env).availableSlots = some [] := by
  refine ⟨computeSlots_empty_window _ _ _ h, ?_⟩
  intro env fetches hreach hcal hws hwe
  have hresp : availableSlotsHandler env = slotsResponse [] none none := by
    rw [availableSlotsHandler_at_fetch env hreach, hcal, hws, hwe]
    simp only [slotsOfWindow]
    rw [computeSlots_empty_window _ _ _ h]
  rw [hresp]
  exact ⟨rfl, rfl, rfl, rfl⟩

/-- Witness of C12: a window from 18:00 back to 10:00 on 2024-06-03, with one
busy event. -/
theorem empty_window_no_slots_witness :
    (1717434000000 : Int) ≤ 1717462800000
      ∧ computeSlots [⟨1717444800000, 1717446600000⟩] 1717462800000 1717434000000 = [] :=
  ⟨by decide,
    (empty_window_no_slots [⟨1717444800000, 1717446600000⟩] 1717462800000 1717434000000
      (by decide)).1⟩

/-! ## Reminder windows of successive runs -/

/-- Counterexample to C13 as stated: two runs whose clock readings are exactly
60 seconds apart (0 and 60000) both select the event that starts at
`48h + 30s` (172830000), the upper bound of the first window and the lower
bound of the second. -/
theorem reminder_runs_60s_apart_share_event :
    (0 : Int) + 60 * 1000 ≤ 60000
      ∧ reminderSelects 0 (some 172830000) = true
      ∧ reminderSelects 60000 (some 172830000) = true := by
  refine ⟨by decide, ?_, ?_⟩
  · rw [reminderSelects_some]; omega
  · rw [reminderSelects_some]; omega

/-- C13, amended: for two runs whose clock readings are more than 60 seconds
apart, no timed event start lies in the reminder window of both, so no event
is selected by both runs. -/
theorem reminder_windows_disjoint (now₁ now₂ eventStart : Int)
    (h : now₁ + 60 * 1000 < now₂) :
    ¬ (reminderSelects now₁ (some eventStart) = true
        ∧ reminderSelects now₂ (some eventStart) = true) := by
  rw [reminderSelects_some, reminderSelects_some]
  omega

/-- Witness of the amended C13: runs at 0 and at 60001 ms. -/
theorem reminder_windows_disjoint_witness :
    ¬ (reminderSelects 0 (some 172830000) = true
        ∧ reminderSelects 60001 (some 172830000) = true) :=
  reminder_windows_disjoint 0 60001 172830000 (by decide)

/-! ## Failed calendar reads -/

theorem gatherEvents_eq_foldl (fetches : List (Except String (List GEvent))) :
    gatherEvents fetches = fetches.foldl gatherStep [] := rfl

theorem foldl_gatherStep_asIfEmpty (fetches : List (Except String (List GEvent))) :
    ∀ init : List BusyEvent,
      (fetches.map asIfEmpty).foldl gatherStep init = fetches.foldl gatherStep init := by
  induction fetches with
  | nil => intro init; rfl
  | cons fetch rest ih =>
    intro init
    simp only [List.map_cons, List.foldl_cons]
    cases fetch with
    | error e =>
      have h : gatherStep init (asIfEmpty (Except.error e)) = gatherStep init (Except.error e) := by
        simp [gatherStep, asIfEmpty, timedEvents]
      rw [h]
      exact ih _
    | ok items => exact ih _

/-- Counterexample to C14 as stated: on Monday 2024-06-03 with the window
10:00-18:00, a teacher whose only calendar cannot be read gets 200 with 16
slots and no warning; and when the calendar list cannot be read the answer is
the error 500. -/
theorem failed_read_gives_slots_or_error :
    (availableSlotsHandler
        (slotsEnvAt "2024-06-03" (some 1) (.ok [.error "read failed"])
          (some 1717434000000) (some 1717462800000))).status = 200
      ∧ (availableSlotsHandler
        (slotsEnvAt "2024-06-03" (some 1) (.ok [.error "read failed"])
          (some 1717434000000) (some 1717462800000))).warning = none
      ∧ (availableSlotsHandler
        (slotsEnvAt "2024-06-03" (some 1) (.ok [.error "read failed"])
          (some 1717434000000) (some 1717462800000))).availableSlots
          = some (candidates 1717434000000 1717462800000)
      ∧ (candidates 1717434000000 1717462800000).length = 16
      ∧ availableSlotsHandler
          (slotsEnvAt "2024-06-03" (some 1) (.error "list failed")
            (some 1717434000000) (some 1717462800000))
          = errorResponse 500 "Could not fetch available slots" := by
  have h : availableSlotsHandler
      (slotsEnvAt "2024-06-03" (some 1) (.ok [.error "read failed"])
        (some 1717434000000) (some 1717462800000))
      = slotsResponse (candidates 1717434000000 1717462800000) none none := by
    rw [availableSlotsHandler_at_fetch
      (slotsEnvAt "2024-06-03" (some 1) (.ok [.error "read failed"])
        (some 1717434000000) (some 1717462800000)) rfl]
    simp only [slotsEnvAt, slotsOfWindow]
    rw [computeSlots_eq]
    rfl
  refine ⟨?_, ?_, ?_, by decide, ?_⟩
  · rw [h]; rfl
  · rw [h]; rfl
  · rw [h]; rfl
  · rw [availableSlotsHandler_at_fetch
      (slotsEnvAt "2024-06-03" (some 1) (.error "list failed")
        (some 1717434000000) (some 1717462800000)) rfl]
    rfl

/-- C14, amended: for a request that reaches the calendar reads, a calendar
whose events cannot be read is skipped: the answer is 200 with the slots
computed from the calendars that were read, the same answer as if each unread
calendar had been read and held no events, with no warning field and no
error; when the list of calendars itself cannot be read, the answer is the
error 500. -/
theorem failed_read_skips_calendar (env : SlotsEnv) (hreach : env.reachesFetch = true) :
    (∀ fetches : List (Except String (List GEvent)), env.calendars = .ok fetches →
        availableSlotsHandler env
            = slotsResponse
                (slotsOfWindow (gatherEvents (fetches.map asIfEmpty))
                  env.workingStart env.workingEnd)
                none none
          ∧ availableSlotsHandler env
            = availableSlotsHandler { env with calendars := .ok (fetches.map asIfEmpty) }
          ∧ (availableSlotsHandler env).status = 200
          ∧ (availableSlotsHandler env).warning = none
          ∧ (availableSlotsHandler env).error = none)
      ∧ (∀ e : String, env.calendars = .error e →
          availableSlotsHandler env = errorResponse 500 "Could not fetch available slots") := by
  constructor
  · intro fetches hcal
    have hgather : gatherEvents (fetches.map asIfEmpty) = gatherEvents fetches := by
      rw [gatherEvents_eq_foldl, gatherEvents_eq_foldl, foldl_gatherStep_asIfEmpty]
    have h1 : availableSlotsHandler env
        = slotsResponse
            (slotsOfWindow (gatherEvents (fetches.map asIfEmpty))
              env.workingStart env.workingEnd) none none := by
      rw [availableSlotsHandler_at_fetch env hreach, hcal, hgather]
    have h2 : availableSlotsHandler { env with calendars := .ok (fetches.map asIfEmpty) }
        = slotsResponse
            (slotsOfWindow (gatherEvents (fetches.map asIfEmpty))
              env.workingStart env.workingEnd) none none := by
      have hreach2 :
          SlotsEnv.reachesFetch { env with calendars := .ok (fetches.map asIfEmpty) } = true :=
        hreach
      rw [availableSlotsHandler_at_fetch _ hreach2]
    refine ⟨h1, by rw [h1, h2], ?_, ?_, ?_⟩ <;> rw [h1] <;> rfl
  · intro e hcal
    rw [availableSlotsHandler_at_fetch env hreach, hcal]
    rfl

/-- Witness of the amended C14: two calendars, the first read, the second
not. -/
theorem failed_read_skips_calendar_witness :
    availableSlotsHandler
        (slotsEnvAt "2024-06-03" (some 1)
          (.ok [.ok [⟨some 1717444800000, some 1717446600000, none, none⟩], .error "read failed"])
          (some 1717434000000) (some 1717462800000))
      = availableSlotsHandler
        (slotsEnvAt "2024-06-03" (some 1)
          (.ok [.ok [⟨some 1717444800000, some 1717446600000, none, none⟩], .ok []])
          (some 1717434000000) (some 1717462800000)) :=
  ((failed_read_skips_calendar
      (slotsEnvAt "2024-06-03" (some 1)
        (.ok [.ok [⟨some 1717444800000, some 1717446600000, none, none⟩], .error "read failed"])
        (some 1717434000000) (some 1717462800000)) rfl).1
    [.ok [⟨some 1717444800000, some 1717446600000, none, none⟩], .error "read failed"] rfl).2.1

/-! ## Notification failures -/

theorem bookHandler_written (env : BookEnv) (h : Effect.eventsInsert ∈ (bookHandler env).effects) :
    env.reachesGate = true ∧ within24Hours env.lessonStart env.now = false
      ∧ env.client = .ok () ∧ env.insertResult = .ok () := by
  rcases bookHandler_effects_cases env with he | ⟨_, h1, h2, h3, h4⟩
  · rw [he] at h
    simp at h
  · exact ⟨h1, h2, h3, h4⟩

theorem cancelHandler_written (env : CancelEnv)
    (h : Effect.eventsDelete ∈ (cancelHandler env).effects) :
    env.reachesPolicy = true
      ∧ sessionMismatch env.sessionUserId env.studentId = false
      ∧ ∃ event eventStart, env.event = .ok event
          ∧ eventNotOwned event.privateStudentId env.studentId = false
          ∧ startTimeISO event = some eventStart
          ∧ within24Hours (some eventStart) env.now = false
          ∧ env.deleteResult = .ok () := by
  rcases cancelHandler_effects_cases env with he | ⟨_, h1, h2, h3⟩
  · rw [he] at h
    simp at h
  · exact ⟨h1, h2, h3⟩

/-- C15: once the calendar write has succeeded (the event was inserted, or
deleted), the answer is success, 201 for booking and 200 for cancellation,
whatever the sending of the notification email does, a thrown error
included: the response does not depend on it, and the write stays done. -/
theorem notification_failure_keeps_success :
    (∀ (env : BookEnv) (emailResult : Except String Unit),
        Effect.eventsInsert ∈ (bookHandler env).effects →
        (bookHandler { env with emailResult := emailResult }).response
            = messageResponse 201 "✅ Appointment created in Google Calendar"
          ∧ (bookHandler { env with emailResult := emailResult }).response.status = 201
          ∧ Effect.eventsInsert ∈ (bookHandler { env with emailResult := emailResult }).effects)
      ∧ (∀ (env : CancelEnv) (emailResult : Except String Unit),
        Effect.eventsDelete ∈ (cancelHandler env).effects →
        (cancelHandler { env with emailResult := emailResult }).response
            = messageResponse 200 "✅ Lesson cancelled"
          ∧ (cancelHandler { env with emailResult := emailResult }).response.status = 200
          ∧ Effect.eventsDelete ∈ (cancelHandler { env with emailResult := emailResult }).effects) := by
  constructor
  · intro env emailResult h
    obtain ⟨hreach, hw, hclient, hinsert⟩ := bookHandler_written env h
    have hreach2 : BookEnv.reachesGate { env with emailResult := emailResult } = true := hreach
    rw [bookHandler_at_gate _ hreach2]
    simp only
    rw [hw, hclient, hinsert]
    simp [messageResponse]
  · intro env emailResult h
    obtain ⟨hreach, hs, event, eventStart, hevent, ho, hstart, hw, hdel⟩ :=
      cancelHandler_written env h
    have hclient : env.client = .ok () := by
      rw [cancelHandler_at_policy env hreach, hs] at h
      cases hc : env.client with
      | error e =>
        rw [hc] at h
        simp [cancelCatch] at h
      | ok c => rfl
    have hreach2 : CancelEnv.reachesPolicy { env with emailResult := emailResult } = true :=
      hreach
    rw [cancelHandler_at_policy _ hreach2]
    simp only
    rw [hs, hclient, hevent]
    simp only [Bool.false_eq_true, if_false]
    rw [ho, hstart]
    simp only [Bool.false_eq_true, if_false]
    rw [hw, hdel]
    simp [messageResponse]

/-- Witness of C15: a booking 24 hours ahead whose confirmation email throws. -/
theorem notification_failure_keeps_success_witness :
    (bookHandler { bookEnvAt 0 (some 86400000) with emailResult := .error "send failed" }).response
      = messageResponse 201 "✅ Appointment created in Google Calendar" :=
  (notification_failure_keeps_success.1 (bookEnvAt 0 (some 86400000)) (.error "send failed")
    (by
      rw [bookHandler_at_gate (bookEnvAt 0 (some 86400000)) rfl]
      have hw : within24Hours (bookEnvAt 0 (some 86400000)).lessonStart
          (bookEnvAt 0 (some 86400000)).now = false :=
        (within24Hours_some_false _ _).2 (by decide)
      rw [hw]
      simp [bookEnvAt])).1

/-! ## All-day events in the reminder job -/

/-- C17: an event returned by the calendar without `start.dateTime` (an
all-day event) is skipped by the reminder job: it is not selected and no
reminder is sent for it, whatever the clock reading (hence whatever its date)
and whatever student the lookup would find. -/
theorem all_day_event_gets_no_reminder (now : Int) (studentEmail : Option String) :
    reminderSelects now none = false
      ∧ reminderSendCalled now none studentEmail = false := by
  constructor
  · rfl
  · simp [reminderSendCalled, reminderSelects]

/-! ## The controller's slot loop in closed form -/

theorem controllerSlotLoop_unfold (ev : List DateEvent) (dayEnd cur : Int) (acc : List Slot) :
    controllerSlotLoop ev dayEnd cur acc =
      if cur < dayEnd then
        if controllerFree ev ⟨cur, cur + 1800000⟩ then
          controllerSlotLoop ev dayEnd (cur + 1800000) (acc ++ [⟨cur, cur + 1800000⟩])
        else controllerSlotLoop ev dayEnd (cur + 1800000) acc
      else acc := by
  rw [controllerSlotLoop]
  simp only [SLOT_DURATION_MINUTES, controllerFree]
  norm_num

theorem controllerCount_zero_iff (cur dayEnd : Int) :
    controllerCount cur dayEnd = 0 ↔ ¬ cur < dayEnd := by
  simp only [controllerCount, SLOT_DURATION_MINUTES]
  omega

theorem controllerCount_step (cur dayEnd : Int) (n : Nat)
    (h : controllerCount cur dayEnd = n + 1) :
    cur < dayEnd ∧ controllerCount (cur + 1800000) dayEnd = n := by
  simp only [controllerCount, SLOT_DURATION_MINUTES] at *
  omega

theorem controllerSlotLoop_eq_aux (ev : List DateEvent) (dayEnd : Int) :
    ∀ (n : Nat) (cur : Int) (acc : List Slot), controllerCount cur dayEnd = n →
      controllerSlotLoop ev dayEnd cur acc
        = acc ++ ((List.range n).map (candidate cur)).filter (controllerFree ev) := by
  intro n
  induction n with
  | zero =>
    intro cur acc h
    rw [controllerSlotLoop_unfold, if_neg ((controllerCount_zero_iff cur dayEnd).1 h)]
    simp
  | succ n ih =>
    intro cur acc h
    obtain ⟨hlt, hn⟩ := controllerCount_step cur dayEnd n h
    rw [controllerSlotLoop_unfold, if_pos hlt, List.range_succ_eq_map, List.map_cons,
      List.map_map]
    have hmap : (candidate cur ∘ Nat.succ) = candidate (cur + 1800000) := by
      funext k
      exact candidate_succ cur k
    rw [hmap, candidate_zero]
    by_cases hf : controllerFree ev ⟨cur, cur + 1800000⟩ = true
    · rw [if_pos hf, ih _ _ hn, List.filter_cons_of_pos hf]
      simp
    · rw [if_neg hf, ih _ _ hn, List.filter_cons_of_neg hf]

/-- The controller's slot loop is the filter, by `controllerFree`, of the
candidates that start before `dayEnd`. -/
theorem controllerSlotLoop_eq (ev : List DateEvent) (dayStart dayEnd : Int) :
    controllerSlotLoop ev dayEnd dayStart []
      = ((List.range (controllerCount dayStart dayEnd)).map (candidate dayStart)).filter
          (controllerFree ev) := by
  rw [controllerSlotLoop_eq_aux ev dayEnd _ dayStart [] rfl]
  simp

/-! ## All-day events and availability -/

theorem timedEvents_dropAllDay (items : List GEvent) :
    timedEvents (dropAllDay items) = timedEvents items := by
  induction items with
  | nil => rfl
  | cons event rest ih =>
    obtain ⟨s, e, sd, ed⟩ := event
    cases s <;> cases e <;>
      simp [dropAllDay, timedEvents, GEvent.timed, List.filter_cons] at ih ⊢ <;> exact ih

theorem foldl_gatherStep_dropAllDay (fetches : List (Except String (List GEvent))) :
    ∀ init : List BusyEvent,
      (fetches.map dropAllDayFetch).foldl gatherStep init = fetches.foldl gatherStep init := by
  induction fetches with
  | nil => intro init; rfl
  | cons fetch rest ih =>
    intro init
    simp only [List.map_cons, List.foldl_cons]
    cases fetch with
    | error e => exact ih _
    | ok items =>
      have h : gatherStep init (dropAllDayFetch (Except.ok items))
          = gatherStep init (Except.ok items) := by
        simp [gatherStep, dropAllDayFetch, timedEvents_dropAllDay]
      rw [h]
      exact ih _

/-- C16: in the available-slots handler of `index.js`, all-day events (items
lacking `start.dateTime` or `end.dateTime`) are not among the busy intervals
and never remove a slot: every busy interval comes from a timed item, the
busy list gathered from the calendars is the same with the all-day events
deleted from every read, and so is the answer of the handler. -/
theorem index_all_day_events_ignored (env : SlotsEnv)
    (fetches : List (Except String (List GEvent))) (hcal : env.calendars = .ok fetches) :
    gatherEvents (fetches.map dropAllDayFetch) = gatherEvents fetches
      ∧ availableSlotsHandler { env with calendars := .ok (fetches.map dropAllDayFetch) }
          = availableSlotsHandler env
      ∧ ∀ items : List GEvent, ∀ busy ∈ timedEvents items,
          ∃ event ∈ items, event.timed = true ∧ event.startDateTime = some busy.startTime
            ∧ event.endDateTime = some busy.endTime := by
  have hg : gatherEvents (fetches.map dropAllDayFetch) = gatherEvents fetches := by
    rw [gatherEvents_eq_foldl, gatherEvents_eq_foldl, foldl_gatherStep_dropAllDay]
  refine ⟨hg, ?_, ?_⟩
  · unfold availableSlotsHandler
    simp only [hcal, hg]
  · intro items busy hbusy
    simp only [timedEvents, List.mem_filterMap] at hbusy
    obtain ⟨event, hmem, hev⟩ := hbusy
    refine ⟨event, hmem, ?_⟩
    obtain ⟨s, e, sd, ed⟩ := event
    cases s <;> cases e <;> simp at hev
    subst hev
    simp [GEvent.timed]

/-- Witness of C16: on Monday 2024-06-03, a calendar holding the all-day event
of that day and the timed event 13:00-13:30 gets the same answer as the
calendar holding the timed event alone. -/
theorem index_all_day_events_ignored_witness :
    availableSlotsHandler
        (slotsEnvAt "2024-06-03" (some 1)
          (.ok [.ok [⟨some 1717444800000, some 1717446600000, none, none⟩]])
          (some 1717434000000) (some 1717462800000))
      = availableSlotsHandler
        (slotsEnvAt "2024-06-03" (some 1)
          (.ok [.ok [⟨none, none, some 1717372800000, some 1717459200000⟩,
                     ⟨some 1717444800000, some 1717446600000, none, none⟩]])
          (some 1717434000000) (some 1717462800000)) :=
  (index_all_day_events_ignored
    (slotsEnvAt "2024-06-03" (some 1)
      (.ok [.ok [⟨none, none, some 1717372800000, some 1717459200000⟩,
                 ⟨some 1717444800000, some 1717446600000, none, none⟩]])
      (some 1717434000000) (some 1717462800000))
    [.ok [⟨none, none, some 1717372800000, some 1717459200000⟩,
          ⟨some 1717444800000, some 1717446600000, none, none⟩]]
    rfl).2.1

/-- The text of `getAvailableSlots` in `calendarController.js`, which no
request reaches (see `getAvailableSlots`), has no such skip: read with the
stray token removed, for the date 2024-06-03 a calendar holding only the
all-day event of that day (`start.date` 2024-06-03, `end.date` 2024-06-04)
would get no slot at all, and the 16 slots of 10:00-18:00 UTC with that event
deleted. -/
theorem controller_all_day_event_blocks_day :
    getAvailableSlots
        (controllerEnvAt "2024-06-03" (some 1717372800000)
          [⟨none, none, some 1717372800000, some 1717459200000⟩])
      = slotsResponse [] none none
      ∧ getAvailableSlots
          (controllerEnvAt "2024-06-03" (some 1717372800000)
            (dropAllDay [⟨none, none, some 1717372800000, some 1717459200000⟩]))
        = slotsResponse ((List.range 16).map (candidate 1717408800000)) none none
      ∧ controllerEvents [⟨none, none, some 1717372800000, some 1717459200000⟩]
        = [⟨some 1717372800000, some 1717459200000⟩] := by
  refine ⟨?_, ?_, rfl⟩
  · simp only [getAvailableSlots, controllerEnvAt]
    rw [controllerSlotLoop_eq]
    decide
  · simp only [getAvailableSlots, controllerEnvAt]
    rw [controllerSlotLoop_eq]
    decide

/-! ## Requests without a date -/

/-- C18: an available-slots request without a date (absent or empty) is
answered 400 at once, by the handler of `index.js` and by the controller's
`getAvailableSlots` alike. The answer is the same whatever the teacher lookup,
the client authorization, the calendar reads and the working window would
give, failures included: none of them is consulted. -/
theorem missing_date_rejected_at_once :
    (∀ env : SlotsEnv, (env.date = none ∨ env.date = some "") →
        availableSlotsHandler env = errorResponse 400 "Missing date (YYYY-MM-DD)"
          ∧ (availableSlotsHandler env).status = 400
          ∧ (availableSlotsHandler env).availableSlots = none
          ∧ ∀ other : SlotsEnv, other.date = env.date →
              availableSlotsHandler other = availableSlotsHandler env)
      ∧ (∀ env : ControllerEnv, (env.date = none ∨ env.date = some "") →
        getAvailableSlots env = errorResponse 400 "Date is required (YYYY-MM-DD)"
          ∧ (getAvailableSlots env).status = 400
          ∧ (getAvailableSlots env).availableSlots = none
          ∧ ∀ other : ControllerEnv, other.date = env.date →
              getAvailableSlots other = getAvailableSlots env) := by
  have h1 : ∀ env : SlotsEnv, (env.date = none ∨ env.date = some "") →
      availableSlotsHandler env = errorResponse 400 "Missing date (YYYY-MM-DD)" := by
    intro env h
    unfold availableSlotsHandler
    rcases h with h | h <;> simp [h]
  have h2 : ∀ env : ControllerEnv, (env.date = none ∨ env.date = some "") →
      getAvailableSlots env = errorResponse 400 "Date is required (YYYY-MM-DD)" := by
    intro env h
    unfold getAvailableSlots
    rcases h with h | h <;> simp [h]
  constructor
  · intro env h
    refine ⟨h1 env h, ?_, ?_, ?_⟩
    · rw [h1 env h]; rfl
    · rw [h1 env h]; rfl
    · intro other hother
      rw [h1 env h, h1 other (by rw [hother]; exact h)]
  · intro env h
    refine ⟨h2 env h, ?_, ?_, ?_⟩
    · rw [h2 env h]; rfl
    · rw [h2 env h]; rfl
    · intro other hother
      rw [h2 env h, h2 other (by rw [hother]; exact h)]

/-- Witness of C18: a request without a date whose teacher lookup would throw
and whose calendar list could not be read. -/
theorem missing_date_rejected_at_once_witness :
    availableSlotsHandler
        { date := none, teacher := .error "database down", client := .error "no client",
          weekday := none, calendars := .error "list failed", workingStart := none,
          workingEnd := none }
      = errorResponse 400 "Missing date (YYYY-MM-DD)" :=
  (missing_date_rejected_at_once.1
    { date := none, teacher := .error "database down", client := .error "no client",
      weekday := none, calendars := .error "list failed", workingStart := none,
      workingEnd := none }
    (Or.inl rfl)).1

/-! ## Date validation in `GET /calendar/:teacherSlug/events` -/

/-- When `start` and `end` are both given and one of the two dates is invalid,
`toISOString` throws before the `isNaN` test is reached and the handler
answers through its `catch`: status 500 with an empty array. -/
theorem eventsHandler_invalid_date (env : EventsEnv)
    (hstart : env.start.isNone = false ∧ env.start ≠ some "")
    (hend : env.endParam.isNone = false ∧ env.endParam ≠ some "")
    (hinvalid : env.startDate = none ∨ env.endDate = none) :
    eventsHandler env = .events 500 [] := by
  unfold eventsHandler
  have h1 : ((env.start.isNone || env.start == some "")
      || (env.endParam.isNone || env.endParam == some "")) = false := by
    simp [hstart.1, hstart.2, hend.1, hend.2]
  rw [h1]
  simp only [Bool.false_eq_true, if_false]
  rcases hinvalid with h | h
  · rw [h]; rfl
  · rw [h]
    cases env.startDate <;> rfl

/-- The answer 400 "Invalid start or end date format" is never given. -/
theorem eventsHandler_never_invalid_format (env : EventsEnv) :
    eventsHandler env ≠ .error 400 "Invalid start or end date format" := by
  unfold eventsHandler
  split
  · simp
  · cases env.startDate with
    | none => simp [toISOString, eventsCatch]
    | some timeMin =>
      cases env.endDate with
      | none => simp [toISOString, eventsCatch]
      | some timeMax =>
        simp only [toISOString, dateOfISOString, isNaNDate, Option.isNone_some, Bool.or_self,
          Bool.false_eq_true, if_false]
        cases env.teacher with
        | error e => simp [eventsCatch]
        | ok t =>
          cases t with
          | none => simp
          | some teacher =>
            simp only
            split
            · simp
            · cases env.client with
              | error e => simp [eventsCatch]
              | ok c =>
                cases c with
                | false => simp
                | true =>
                  cases env.events with
                  | error e => simp [eventsCatch]
                  | ok items => simp

/-- C19 at a failing input: the request `?start=abc&end=2024-06-03`, in which
`new Date("abcT00:00:00Z")` is invalid, is answered 500 with an empty array,
not 400 "Invalid start or end date format". -/
theorem events_invalid_start_answers_500 :
    eventsHandler
        { start := some "abc", endParam := some "2024-06-03", startDate := none,
          endDate := some 1717459199000,
          teacher := .ok (some { role := "TEACHER", googleToken := some "token" }),
          client := .ok true, events := .ok [] }
      = .events 500 []
      ∧ (eventsHandler
        { start := some "abc", endParam := some "2024-06-03", startDate := none,
          endDate := some 1717459199000,
          teacher := .ok (some { role := "TEACHER", googleToken := some "token" }),
          client := .ok true, events := .ok [] }).status = 500
      ∧ eventsHandler
        { start := some "abc", endParam := some "2024-06-03", startDate := none,
          endDate := some 1717459199000,
          teacher := .ok (some { role := "TEACHER", googleToken := some "token" }),
          client := .ok true, events := .ok [] }
        ≠ .error 400 "Invalid start or end date format" := by
  refine ⟨rfl, rfl, ?_⟩
  decide

/-! ## Scopes requested by `GET /auth/google` -/

/-- Whatever `mode` and `role` are in the query, the consent URL of
`GET /auth/google` requests the student scopes: `getAuthUrl` receives the
boolean `isTeacher`, which is never `=== 'TEACHER'`. -/
theorem authGoogleHandler_scope (modeQuery roleQuery : Option String) :
    (authGoogleHandler modeQuery roleQuery).scope
      = ["https://www.googleapis.com/auth/userinfo.email",
         "https://www.googleapis.com/auth/userinfo.profile",
         "https://www.googleapis.com/auth/calendar.events.readonly"] := by
  simp [authGoogleHandler, getAuthUrl, withDefault]

/-- C20 at a failing input: for `GET /auth/google?role=TEACHER` the consent URL
requests the read-only `calendar.events.readonly` scope and neither `calendar`
nor `gmail.send`; `getAuthUrl` called with the string `'TEACHER'` would request
both. -/
theorem auth_google_teacher_gets_student_scopes :
    (authGoogleHandler none (some "TEACHER")).scope
        = ["https://www.googleapis.com/auth/userinfo.email",
           "https://www.googleapis.com/auth/userinfo.profile",
           "https://www.googleapis.com/auth/calendar.events.readonly"]
      ∧ "https://www.googleapis.com/auth/calendar" ∉ (authGoogleHandler none (some "TEACHER")).scope
      ∧ "https://www.googleapis.com/auth/gmail.send" ∉ (authGoogleHandler none (some "TEACHER")).scope
      ∧ (getAuthUrl (.str "login") (.str "TEACHER")).scope
        = ["https://www.googleapis.com/auth/userinfo.email",
           "https://www.googleapis.com/auth/userinfo.profile",
           "https://www.googleapis.com/auth/calendar",
           "https://www.googleapis.com/auth/gmail.send"] := by
  refine ⟨by decide, by decide, by decide, by decide⟩

/-! ## Monotonicity in the busy list -/

theorem slotFree_mono (B B' : List BusyEvent) (h : ∀ e ∈ B, e ∈ B') (s : Slot)
    (hfree : slotFree B' s = true) : slotFree B s = true := by
  rw [slotFree_iff] at hfree ⊢
  intro event hev
  exact hfree event (h event hev)

/-- C22: when every interval of the busy list `B` also occurs in `B'`, the
slots computed from `B'` form a subsequence of those computed from `B`; and
when the two lists hold the same intervals (in any order, with any
multiplicity) the two results are equal. -/
theorem more_busy_gives_subsequence (B B' : List BusyEvent) (workingStart workingEnd : Int)
    (h : ∀ e ∈ B, e ∈ B') :
    List.Sublist (computeSlots B' workingStart workingEnd)
        (computeSlots B workingStart workingEnd)
      ∧ ((∀ e ∈ B', e ∈ B) →
          computeSlots B' workingStart workingEnd = computeSlots B workingStart workingEnd) := by
  constructor
  · rw [computeSlots_eq, computeSlots_eq]
    exact List.monotone_filter_right _ (fun s hs => slotFree_mono B B' h s hs)
  · intro h'
    rw [computeSlots_eq, computeSlots_eq]
    apply List.filter_congr
    intro s _
    cases hB : slotFree B s with
    | true => exact slotFree_mono B' B h' s hB
    | false =>
      cases hB' : slotFree B' s with
      | false => rfl
      | true => rw [slotFree_mono B B' h s hB'] at hB; exact absurd hB (by simp)

/-- Witness of C22: on the window 10:00-18:00 of 2024-06-03, adding the busy
interval 13:00-13:30 to the busy list 10:00-10:30. -/
theorem more_busy_gives_subsequence_witness :
    List.Sublist
      (computeSlots
        [⟨1717434000000, 1717435800000⟩, ⟨1717444800000, 1717446600000⟩]
        1717434000000 1717462800000)
      (computeSlots [⟨1717434000000, 1717435800000⟩] 1717434000000 1717462800000) :=
  (more_busy_gives_subsequence [⟨1717434000000, 1717435800000⟩]
    [⟨1717434000000, 1717435800000⟩, ⟨1717444800000, 1717446600000⟩]
    1717434000000 1717462800000 (by decide)).1

/-! ## The two slot loops -/

theorem controllerFree_toDateEvent (B : List BusyEvent) (s : Slot) :
    controllerFree (B.map BusyEvent.toDateEvent) s = slotFree B s := by
  have hover : ∀ event : BusyEvent,
      controllerOverlaps s.startTime s.endTime event.toDateEvent
        = eventOverlaps s.startTime s.endTime event := by
    intro event
    simp [controllerOverlaps, eventOverlaps, BusyEvent.toDateEvent, dateLt]
  have hany : (B.map BusyEvent.toDateEvent).any (controllerOverlaps s.startTime s.endTime)
      = B.any (eventOverlaps s.startTime s.endTime) := by
    induction B with
    | nil => rfl
    | cons event rest ih => simp only [List.map_cons, List.any_cons, hover, ih]
  simp only [controllerFree, slotFree, hany]

theorem controllerCount_eq_slotCount (dayStart dayEnd : Int) (n : Nat)
    (h : dayEnd - dayStart = 1800000 * (n : Int)) :
    controllerCount dayStart dayEnd = slotCount dayStart dayEnd := by
  simp only [controllerCount, slotCount, SLOT_DURATION_MINUTES]
  omega

/-- C23: when `end - start` is a non-negative multiple of 30 minutes, the slot
loop of the controller's `getAvailableSlots` (`while (current < dayEnd)`) and
the slot loop of `index.js` (`while (current + 30min <= workingEnd)`), run from
the same start on the same busy list, return the same sequence of slots. -/
theorem controller_loop_eq_index_loop (B : List BusyEvent) (dayStart dayEnd : Int) (n : Nat)
    (h : dayEnd - dayStart = 1800000 * (n : Int)) :
    controllerSlotLoop (B.map BusyEvent.toDateEvent) dayEnd dayStart []
      = slotLoop B dayEnd dayStart [] := by
  have hloop : slotLoop B dayEnd dayStart [] = computeSlots B dayStart dayEnd := rfl
  rw [hloop, computeSlots_eq, controllerSlotLoop_eq, controllerCount_eq_slotCount _ _ n h,
    candidates]
  apply List.filter_congr
  intro s _
  exact controllerFree_toDateEvent B s

/-- Witness of C23: the window 10:00-18:00 UTC of 2024-06-03 (16 half hours)
with the busy interval 13:00-13:30. -/
theorem controller_loop_eq_index_loop_witness :
    controllerSlotLoop ([⟨1717419600000, 1717421400000⟩].map BusyEvent.toDateEvent)
        1717437600000 1717408800000 []
      = slotLoop [⟨1717419600000, 1717421400000⟩] 1717437600000 1717408800000 [] :=
  controller_loop_eq_index_loop [⟨1717419600000, 1717421400000⟩]
    1717408800000 1717437600000 16 (by decide)

/-! ## An unparsable `startTime` at the advance-booking gate -/

/-- C24: in `POST /calendar/book`, for a request that reaches the
advance-booking check, the handler answers 403 only when the start parsed to
an instant less than 24 hours ahead. When the (non-empty) `startTime` does
not parse, the hour difference is `NaN`, the test `< 24` is false, and the
handler goes on to the calendar insert: it answers 201 and the event is
inserted when client and insert succeed, and 500 when one of them throws;
never 403. -/
theorem unparsable_start_passes_gate (env : BookEnv) (hreach : env.reachesGate = true) :
    ((bookHandler env).response.status = 403 ↔
        ∃ lessonStart, env.lessonStart = some lessonStart
          ∧ lessonStart - env.now < 24 * 60 * 60 * 1000)
      ∧ (env.lessonStart = none →
          diffHours env.lessonStart env.now = none
            ∧ within24Hours env.lessonStart env.now = false
            ∧ (bookHandler env).response.status ≠ 403
            ∧ (env.client = .ok () → env.insertResult = .ok () →
                (bookHandler env).response.status = 201
                  ∧ Effect.eventsInsert ∈ (bookHandler env).effects)
            ∧ ((∃ e, env.client = .error e) ∨ (∃ e, env.insertResult = .error e) →
                (bookHandler env).response.status = 500)) := by
  have hgate := bookHandler_at_gate env hreach
  have hafter : ∀ o : Outcome,
      (o = match env.client with
        | .error _ => bookCatch
        | .ok _ =>
          match env.insertResult with
          | .error _ => bookCatch
          | .ok _ =>
            { response := messageResponse 201 "✅ Appointment created in Google Calendar",
              effects := Effect.eventsInsert :: emailEffects env.emailResult }) →
      o.response.status ≠ 403
        ∧ (env.client = .ok () → env.insertResult = .ok () →
            o.response.status = 201 ∧ Effect.eventsInsert ∈ o.effects)
        ∧ ((∃ e, env.client = .error e) ∨ (∃ e, env.insertResult = .error e) →
            o.response.status = 500) := by
    intro o ho
    cases hclient : env.client with
    | error e =>
      rw [hclient] at ho
      subst ho
      refine ⟨by simp [bookCatch, errorResponse], ?_, ?_⟩
      · intro h; cases h
      · intro _; rfl
    | ok c =>
      cases hinsert : env.insertResult with
      | error e =>
        rw [hclient, hinsert] at ho
        subst ho
        refine ⟨by simp [bookCatch, errorResponse], ?_, ?_⟩
        · intro _ h; cases h
        · intro _; rfl
      | ok r =>
        rw [hclient, hinsert] at ho
        subst ho
        refine ⟨by simp [messageResponse], ?_, ?_⟩
        · intro _ _
          exact ⟨rfl, List.mem_cons_self _ _⟩
        · rintro (⟨e, he⟩ | ⟨e, he⟩) <;> cases he
  constructor
  · cases hstart : env.lessonStart with
    | none =>
      have hw : within24Hours env.lessonStart env.now = false := by rw [hstart]; rfl
      rw [hgate, hw]
      simp only [Bool.false_eq_true, if_false]
      constructor
      · intro h
        exact absurd h (hafter _ rfl).1
      · rintro ⟨lessonStart, h, _⟩
        cases h
    | some lessonStart =>
      by_cases hw : within24Hours (some lessonStart) env.now = true
      · rw [hgate, hstart, if_pos hw]
        have hlt := (within24Hours_some _ _).1 hw
        constructor
        · intro _
          exact ⟨lessonStart, rfl, by omega⟩
        · intro _; rfl
      · rw [hgate, hstart, if_neg hw]
        have hge := (within24Hours_some_false _ _).1 (by simpa using hw)
        constructor
        · intro h
          exact absurd h (hafter _ rfl).1
        · rintro ⟨t, ht, hlt⟩
          cases ht
          omega
  · intro hnone
    have hw : within24Hours env.lessonStart env.now = false := by rw [hnone]; rfl
    refine ⟨by rw [hnone]; rfl, hw, ?_⟩
    rw [hgate, hw]
    simp only [Bool.false_eq_true, if_false]
    exact hafter _ rfl

/-- Witness of C24: a booking whose `startTime` is the non-empty string
`"start"`, which does not parse (`lessonStart = none`): the event is inserted
and the answer is 201. -/
theorem unparsable_start_passes_gate_witness :
    (bookEnvAt 0 none).reachesGate = true
      ∧ (bookEnvAt 0 none).startTime.truthy = true
      ∧ (bookHandler (bookEnvAt 0 none)).response.status = 201
      ∧ Effect.eventsInsert ∈ (bookHandler (bookEnvAt 0 none)).effects :=
  ⟨rfl, rfl,
    ((unparsable_start_passes_gate (bookEnvAt 0 none) rfl).2 rfl).2.2.2.1 rfl rfl⟩

/-! ## The OAuth state and the redirect of the callback -/

theorem colon_state_ne_create (a b : String) : a ++ ":" ++ b ≠ "create" := by
  intro h
  have hdata := congrArg String.data h
  have hmem : ':' ∈ (a ++ ":" ++ b).data := by
    simp [String.data_append]
  rw [hdata] at hmem
  revert hmem
  decide

theorem getAuthUrl_state (mode role : JsVal) :
    (getAuthUrl mode role).state
      = (withDefault mode "login").toStr ++ ":" ++ (withDefault role "STUDENT").toStr := rfl

/-- C25: the state string built by `getAuthUrl` is `mode`, a colon and `role`
(each replaced by its default when `undefined`), so it is never `'create'`;
hence, in `/oauth2callback`, for a request that carries such a state and
reaches the redirect (code given, credentials obtained, user row found), the
redirect goes to `/complete-profile.html` exactly when the user is new, and to
`/index.html` otherwise. -/
theorem callback_redirect_iff_new_user (mode role : JsVal) :
    (getAuthUrl mode role).state
        = (withDefault mode "login").toStr ++ ":" ++ (withDefault role "STUDENT").toStr
      ∧ (getAuthUrl mode role).state ≠ "create"
      ∧ ∀ (env : CallbackEnv) (code : String) (userId : JsVal) (newUser : Bool)
          (user : UserRow),
          env.state = some (getAuthUrl mode role).state →
          env.code = some code → code ≠ "" →
          env.credentials = .ok (userId, newUser) → env.user = .ok (some user) →
          (oauth2callback env = .redirect "/complete-profile.html" ↔ newUser = true)
            ∧ (oauth2callback env = .redirect "/index.html" ↔ newUser = false) := by
  have hne : (getAuthUrl mode role).state ≠ "create" := by
    rw [getAuthUrl_state]
    exact colon_state_ne_create _ _
  refine ⟨rfl, hne, ?_⟩
  intro env code userId newUser user hstate hcode hcode_ne hcred huser
  unfold oauth2callback
  rw [hcode, hcred, huser, hstate]
  have hstate_ne : (some (getAuthUrl mode role).state == some "create") = false := by
    simp [hne]
  simp only [hstate_ne, Bool.false_or]
  cases newUser <;> simp [hcode_ne]

/-- Witness of C25: the state of a `create` request of a student, as
`/auth/google` builds it, with a user who is not new: the redirect goes to
`/index.html`. -/
theorem callback_redirect_iff_new_user_witness :
    (getAuthUrl (.str "create") (.bool false)).state = "create:false"
      ∧ oauth2callback
          { code := some "4/abc", state := some "create:false",
            credentials := .ok (.num 7 (by decide), false),
            user := .ok (some { role := "STUDENT", googleToken := some "token" }) }
        = .redirect "/index.html" :=
  ⟨by decide,
    ((callback_redirect_iff_new_user (.str "create") (.bool false)).2.2
      { code := some "4/abc", state := some "create:false",
        credentials := .ok (.num 7 (by decide), false),
        user := .ok (some { role := "STUDENT", googleToken := some "token" }) }
      "4/abc" (.num 7 (by decide)) false { role := "STUDENT", googleToken := some "token" }
      (by decide) rfl (by decide) rfl rfl).2.2 rfl⟩

/-! ## The unique slug loop -/

theorem digitVal_digitChar (m : Nat) (h : m < 10) : digitVal (Nat.digitChar m) = m := by
  interval_cases m <;> rfl

theorem digitsVal_append_singleton (l : List Char) (c : Char) :
    digitsVal (l ++ [c]) = 10 * digitsVal l + digitVal c := by
  simp [digitsVal, List.foldl_append]

theorem toDigitsCore_val (fuel : Nat) :
    ∀ (n : Nat) (ds : List Char), n < fuel →
      ∃ pre, Nat.toDigitsCore 10 fuel n ds = pre ++ ds ∧ digitsVal pre = n := by
  induction fuel with
  | zero => intro n ds h; omega
  | succ fuel ih =>
    intro n ds h
    simp only [Nat.toDigitsCore]
    by_cases h0 : n / 10 = 0
    · rw [if_pos h0]
      refine ⟨[Nat.digitChar (n % 10)], rfl, ?_⟩
      have hone : digitsVal [Nat.digitChar (n % 10)] = digitVal (Nat.digitChar (n % 10)) := by
        simp [digitsVal]
      rw [hone, digitVal_digitChar _ (Nat.mod_lt _ (by norm_num))]
      omega
    · rw [if_neg h0]
      obtain ⟨pre, hpre, hval⟩ := ih (n / 10) (Nat.digitChar (n % 10) :: ds) (by omega)
      refine ⟨pre ++ [Nat.digitChar (n % 10)], ?_, ?_⟩
      · rw [hpre]; simp
      · rw [digitsVal_append_singleton, hval, digitVal_digitChar _ (Nat.mod_lt _ (by norm_num))]
        omega

theorem digitsVal_toString (n : Nat) : digitsVal (toString n).data = n := by
  obtain ⟨pre, hpre, hval⟩ := toDigitsCore_val (n + 1) n [] (by omega)
  have hdata : (toString n).data = pre := by
    show (Nat.repr n).data = pre
    simp only [Nat.repr, Nat.toDigits, List.asString]
    rw [hpre]; simp
  rw [hdata, hval]

/-- Two counters with the same decimal text are equal, so the candidate slugs
`slugBase1`, `slugBase2`, ... are pairwise different. -/
theorem slugWithCount_injective (slugBase : String) :
    Function.Injective (slugWithCount slugBase) := by
  intro i j h
  have hdata := congrArg String.data h
  simp only [slugWithCount, String.data_append, List.append_cancel_left_eq] at hdata
  have hval := congrArg digitsVal hdata
  rwa [digitsVal_toString, digitsVal_toString] at hval

theorem exists_free_count (S : Finset String) (slugBase : String) :
    ∃ k, 1 ≤ k ∧ k ≤ S.card + 1 ∧ slugWithCount slugBase k ∉ S := by
  by_contra hall
  push_neg at hall
  have hle : (Finset.Icc 1 (S.card + 1)).card ≤ S.card := by
    apply Finset.card_le_card_of_injOn (slugWithCount slugBase)
    · intro k hk
      rw [Finset.mem_Icc] at hk
      exact hall k hk.1 hk.2
    · intro a _ b _ hab
      exact slugWithCount_injective slugBase hab
  simp at hle

theorem slugLoop_reaches (inUse : String → Bool) (slugBase : String) (k : Nat)
    (hfree : inUse (slugWithCount slugBase k) = false) :
    ∀ (d count fuel : Nat), count + d = k →
      (∀ j, count ≤ j → j < k → inUse (slugWithCount slugBase j) = true) →
      d + 1 ≤ fuel →
      slugLoop inUse slugBase fuel (slugWithCount slugBase count) (count + 1)
        = some (slugWithCount slugBase k) := by
  intro d
  induction d with
  | zero =>
    intro count fuel hk _ hfuel
    obtain ⟨fuel, rfl⟩ : ∃ f, fuel = f + 1 := ⟨fuel - 1, by omega⟩
    have hcount : count = k := by omega
    subst hcount
    simp [slugLoop, hfree]
  | succ d ih =>
    intro count fuel hk hused hfuel
    obtain ⟨fuel, rfl⟩ : ∃ f, fuel = f + 1 := ⟨fuel - 1, by omega⟩
    have hcur : inUse (slugWithCount slugBase count) = true := hused count (le_refl _) (by omega)
    simp only [slugLoop, hcur, if_true]
    exact ih (count + 1) fuel (by omega) (fun j hj hjk => hused j (by omega) hjk) (by omega)

theorem slugLoop_mono (inUse : String → Bool) (slugBase : String) :
    ∀ (fuel fuel' : Nat) (slug : String) (count : Nat) (result : String), fuel ≤ fuel' →
      slugLoop inUse slugBase fuel slug count = some result →
      slugLoop inUse slugBase fuel' slug count = some result := by
  intro fuel
  induction fuel with
  | zero => intro fuel' slug count result _ h; simp [slugLoop] at h
  | succ fuel ih =>
    intro fuel' slug count result hle h
    obtain ⟨fuel', rfl⟩ : ∃ f, fuel' = f + 1 := ⟨fuel' - 1, by omega⟩
    simp only [slugLoop] at h ⊢
    by_cases hin : inUse slug = true
    · rw [if_pos hin] at h ⊢
      exact ih fuel' _ _ _ (by omega) h
    · rw [if_neg hin] at h ⊢
      exact h

/-- C21: in `loginUser`, for a new user whose email local part is `slugBase`
and a finite set `S` of slugs in use, the slug loop ends (within `|S| + 2`
lookups, and with the same result for any larger bound) on a slug that is not
in `S`: `slugBase` itself when it is not in `S`, otherwise `slugBase` followed
by the least `k >= 1` for which `slugBase` followed by `k` is not in `S`. -/
theorem slug_selection_unique (S : Finset String) (slugBase : String) :
    ∃ slug,
      (∀ fuel, S.card + 2 ≤ fuel → selectSlug S slugBase fuel = some slug)
        ∧ (∀ fuel other, selectSlug S slugBase fuel = some other → other = slug)
        ∧ slug ∉ S
        ∧ (slugBase ∉ S → slug = slugBase)
        ∧ (slugBase ∈ S →
            ∃ k, 1 ≤ k ∧ slug = slugWithCount slugBase k
              ∧ ∀ j, 1 ≤ j → j < k → slugWithCount slugBase j ∈ S) := by
  have hunique : ∀ slug, (∀ fuel, S.card + 2 ≤ fuel → selectSlug S slugBase fuel = some slug) →
      ∀ fuel other, selectSlug S slugBase fuel = some other → other = slug := by
    intro slug hterm fuel other hother
    have h1 := slugLoop_mono _ slugBase fuel (max fuel (S.card + 2)) slugBase 1 other
      (le_max_left _ _) hother
    have h2 := hterm (max fuel (S.card + 2)) (le_max_right _ _)
    unfold selectSlug at h2
    rw [h1] at h2
    exact Option.some.inj h2
  by_cases hb : slugBase ∈ S
  · have hex : ∃ k, 1 ≤ k ∧ slugWithCount slugBase k ∉ S := by
      obtain ⟨k, h1, _, h3⟩ := exists_free_count S slugBase
      exact ⟨k, h1, h3⟩
    have hk := Nat.find_spec hex
    have hmin : ∀ j, 1 ≤ j → j < Nat.find hex → slugWithCount slugBase j ∈ S := by
      intro j hj hlt
      by_contra hnot
      exact Nat.find_min hex hlt ⟨hj, hnot⟩
    have hbound : Nat.find hex ≤ S.card + 1 := by
      obtain ⟨k, h1, h2, h3⟩ := exists_free_count S slugBase
      exact le_trans (Nat.find_min' hex ⟨h1, h3⟩) h2
    have hterm : ∀ fuel, S.card + 2 ≤ fuel →
        selectSlug S slugBase fuel = some (slugWithCount slugBase (Nat.find hex)) := by
      intro fuel hfuel
      obtain ⟨fuel, rfl⟩ : ∃ f, fuel = f + 1 := ⟨fuel - 1, by omega⟩
      unfold selectSlug
      simp only [slugLoop, hb, decide_True, if_true]
      exact slugLoop_reaches _ slugBase (Nat.find hex) (by simpa using hk.2)
        (Nat.find hex - 1) 1 fuel (by omega)
        (fun j hj hjk => by simpa using hmin j hj hjk) (by omega)
    refine ⟨slugWithCount slugBase (Nat.find hex), hterm, hunique _ hterm, hk.2, ?_, ?_⟩
    · intro hnot
      exact absurd hb hnot
    · intro _
      exact ⟨Nat.find hex, hk.1, rfl, hmin⟩
  · have hterm : ∀ fuel, S.card + 2 ≤ fuel → selectSlug S slugBase fuel = some slugBase := by
      intro fuel hfuel
      obtain ⟨fuel, rfl⟩ : ∃ f, fuel = f + 1 := ⟨fuel - 1, by omega⟩
      unfold selectSlug
      simp [slugLoop, hb]
    refine ⟨slugBase, hterm, hunique _ hterm, hb, fun _ => rfl, ?_⟩
    intro h
    exact absurd h hb

/-- Witness of C21: with `ada` and `ada1` in use, the loop for the local part
`ada` ends on `ada2`. -/
theorem slug_selection_unique_witness :
    selectSlug {"ada", "ada1"} "ada" 4 = some "ada2"
      ∧ ∃ slug, selectSlug {"ada", "ada1"} "ada" 4 = some slug
          ∧ slug ∉ ({"ada", "ada1"} : Finset String) :=
  ⟨by decide,
    (slug_selection_unique {"ada", "ada1"} "ada").elim
      (fun slug h => ⟨slug, h.1 4 (by decide), h.2.2.1⟩)⟩

end LessonScheduler
